import Mathlib

/-!
Formal model of the Nova mimic server collection (`mimic/model/nova_objects.py`).

The Python module is embedded shallowly: dictionaries become association
lists or structures, mutation becomes explicit state passing on a `World`
value, raised exceptions become `Except.error`, and Python `None` becomes
`Option.none`.  External collaborators that are not part of the verified
sources (the JSON codec, the regular-expression engine, Twisted's virtual
clock, and the behavior registry from `mimic.model.behaviors`) are modelled
from the specification, and each such definition is marked in its doc
comment.
-/

namespace Mimic

/-- Leaf values of the small JSON objects carried in server metadata
(`create_server_failure`, `delete_server_failure`): integers and strings. -/
inductive JLeaf where
  | jint : Int → JLeaf
  | jstr : String → JLeaf
deriving DecidableEq, Repr

/-- A flat JSON object, as decoded from a metadata value. -/
abbrev JObj := List (String × JLeaf)

/-- Python `dict.get(k, d)` on a decoded JSON object. -/
def jobjGet (o : JObj) (k : String) (d : JLeaf) : JLeaf :=
  ((o.find? (fun kv => decide (kv.1 = k))).map Prod.snd).getD d

/-- Python `o[k]` lookup on a decoded JSON object (`none` models `KeyError`). -/
def jobjLookup (o : JObj) (k : String) : Option JLeaf :=
  (o.find? (fun kv => decide (kv.1 = k))).map Prod.snd

/-- Python `o[k] = v`: replace the value in place (key order preserved),
appending when the key is new. -/
def jobjSet (o : JObj) (k : String) (v : JLeaf) : JObj :=
  if (o.find? (fun kv => decide (kv.1 = k))).isSome then
    o.map (fun kv => if kv.1 = k then (k, v) else kv)
  else o ++ [(k, v)]

/-- Drop leading JSON whitespace characters. -/
def skipWs : List Char → List Char
  | c :: rest =>
      if c = ' ' ∨ c = '\t' ∨ c = '\n' ∨ c = '\r' then skipWs rest else c :: rest
  | [] => []

/-- Decimal digits to a natural number. -/
def digitsToNat (ds : List Char) : Nat :=
  ds.foldl (fun a c => a * 10 + (c.toNat - 48)) 0

/-- Parse a JSON string body (no escape support) up to the closing quote. -/
def parseStringBody : List Char → Option (List Char × List Char)
  | [] => none
  | c :: rest =>
      if c = '"' then some ([], rest)
      else if c = '\\' then none
      else (parseStringBody rest).map (fun p => (c :: p.1, p.2))

/-- Parse an optionally signed decimal integer token. -/
def parseIntTok (cs : List Char) : Option (Int × List Char) :=
  match cs with
  | '-' :: rest =>
      match rest.span (fun c => c.isDigit) with
      | ([], _) => none
      | (ds, r) => some (-(digitsToNat ds : Int), r)
  | _ =>
      match cs.span (fun c => c.isDigit) with
      | ([], _) => none
      | (ds, r) => some ((digitsToNat ds : Int), r)

/-- Parse one JSON leaf value (string or integer). -/
def parseLeaf (cs : List Char) : Option (JLeaf × List Char) :=
  match cs with
  | '"' :: rest => (parseStringBody rest).map (fun p => (.jstr (String.mk p.1), p.2))
  | _ => (parseIntTok cs).map (fun p => (.jint p.1, p.2))

/-- Parse the fields of a JSON object, after the opening brace. -/
def parseFields : Nat → List Char → Option (JObj × List Char)
  | 0, _ => none
  | fuel + 1, cs =>
      match skipWs cs with
      | '"' :: rest =>
          match parseStringBody rest with
          | none => none
          | some (k, r1) =>
              match skipWs r1 with
              | ':' :: r3 =>
                  match parseLeaf (skipWs r3) with
                  | none => none
                  | some (v, r4) =>
                      match skipWs r4 with
                      | ',' :: r6 =>
                          match parseFields fuel r6 with
                          | none => none
                          | some (flds, r7) => some ((String.mk k, v) :: flds, r7)
                      | '}' :: r6 => some ([(String.mk k, v)], r6)
                      | _ => none
              | _ => none
      | _ => none

/-- Modelled from the spec: `json.loads` (wire-format decoding is an external
collaborator).  Decodes the small flat JSON objects that the model stores in
metadata values; anything else fails, modelling a decode error. -/
def loads (s : String) : Option JObj :=
  match skipWs s.toList with
  | '{' :: rest =>
      match skipWs rest with
      | '}' :: r2 => if skipWs r2 = ([] : List Char) then some [] else none
      | _ =>
          match parseFields (s.length + 1) rest with
          | none => none
          | some (o, r) => if skipWs r = ([] : List Char) then some o else none
  | _ => none

/-- Render one JSON leaf the way `json.dumps` does. -/
def JLeaf.dump : JLeaf → String
  | .jint n => toString n
  | .jstr s => "\"" ++ s ++ "\""

/-- Modelled from the spec: `json.dumps` (wire-format encoding is an external
collaborator), restricted to the flat objects used in metadata values.  Uses
the default `", "` and `": "` separators of the Python encoder. -/
def dumps (o : JObj) : String :=
  "\x7b" ++ String.intercalate ", " (o.map (fun kv => "\"" ++ kv.1 ++ "\": " ++ kv.2.dump)) ++ "\x7d"

/-- Fractional digits to a rational (the part after the decimal point). -/
def fracToRat (ds : List Char) : ℚ :=
  (digitsToNat ds : ℚ) / ((10 : ℚ) ^ ds.length)

/-- Modelled from the spec: Python `float(s)` on the numeric strings used for
`server_building` durations - optional sign, integral digits, optional
fractional digits, surrounding whitespace allowed; `none` models
`ValueError`. -/
def pyFloat (s : String) : Option ℚ :=
  let cs := skipWs s.toList
  let signed : Bool × List Char :=
    match cs with
    | '-' :: r => (true, r)
    | '+' :: r => (false, r)
    | r => (false, r)
  let ip := (signed.2.span (fun c => c.isDigit)).1
  let afterInt := (signed.2.span (fun c => c.isDigit)).2
  let fp : List Char × List Char :=
    match afterInt with
    | '.' :: r => r.span (fun c => c.isDigit)
    | r => ([], r)
  let rest := if afterInt = fp.2 then afterInt else fp.2
  if ip = ([] : List Char) ∧ fp.1 = ([] : List Char) then none
  else if skipWs rest ≠ ([] : List Char) then none
  else
    let q : ℚ :=
      if fp.1 = ([] : List Char) then (digitsToNat ip : ℚ)
      else (digitsToNat ip : ℚ) + fracToRat fp.1
    some (if signed.1 then -q else q)

/-- Server metadata: a string-to-string mapping, embedded as an association
list in insertion order (Python dicts preserve insertion order). -/
abbrev Md := List (String × String)

/-- Python `m.get(k)` / `m[k]` lookup. -/
def Md.get? (m : Md) (k : String) : Option String :=
  (m.find? (fun kv => decide (kv.1 = k))).map Prod.snd

/-- Python `m.get(k, d)`. -/
def Md.getD (m : Md) (k : String) (d : String) : String :=
  (Md.get? m k).getD d

/-- Python `k in m`. -/
def Md.hasKey (m : Md) (k : String) : Bool :=
  (Md.get? m k).isSome

/-- Python `m[k] = v`: replace in place (key order preserved), appending when
the key is new. -/
def Md.set (m : Md) (k : String) (v : String) : Md :=
  if Md.hasKey m k then m.map (fun kv => if kv.1 = k then (k, v) else kv)
  else m ++ [(k, v)]

/-- An IP address of a server: the source's `IPv4Address` / `IPv6Address`
classes, each holding one literal `address` string. -/
inductive IPAddress where
  | v4 : String → IPAddress
  | v6 : String → IPAddress
deriving DecidableEq, Repr

/-- The `{addr, version}` object produced by `IPv4Address.json` /
`IPv6Address.json`. -/
structure AddrJson where
  addr : String
  version : Nat
deriving DecidableEq, Repr

/-- `IPv4Address.json` and `IPv6Address.json` from the source. -/
def IPAddress.json : IPAddress → AddrJson
  | .v4 a => ⟨a, 4⟩
  | .v6 a => ⟨a, 6⟩

/-- The `server` sub-object of a creation request body.  `metadata = none`
models an absent `metadata` key; `imageRef = none` models a JSON `null`;
`diskConfig = none` models an absent `OS-DCF:diskConfig` key. -/
structure ServerSpecJson where
  name : String
  metadata : Option Md := none
  flavorRef : String
  imageRef : Option String := none
  diskConfig : Option String := none
deriving DecidableEq, Repr

/-- A creation request body `{server: {...}}`. -/
structure CreationJson where
  server : ServerSpecJson
deriving DecidableEq, Repr

/-- A `Server`: all the state the source's `Server` class carries.  The
`collection` back-reference is not stored; the only attributes it is read
for (`tenant_id`, the clock) are supplied by the enclosing `World`. -/
structure Server where
  server_id : String
  server_name : String
  metadata : Md
  creation_time : ℚ
  update_time : ℚ
  public_ips : List IPAddress
  private_ips : List IPAddress
  status : String
  flavor_ref : String
  image_ref : Option String
  disk_config : String
  admin_password : String
  creation_request_json : CreationJson
deriving DecidableEq, Repr

/-- A callback pending on the virtual clock.  The only callbacks the source
ever schedules are closures setting a captured server's `status`, so a call
is embedded as the capture: absolute fire `time`, the heap reference of the
captured server, and the status it will write. -/
structure SchedCall where
  time : ℚ
  ref : Nat
  newStatus : String
deriving DecidableEq, Repr

/-- The mutable state of one `RegionalServerCollection` together with its
(shared) virtual clock.  Python objects live beyond their membership in the
collection - a scheduled callback keeps its server alive after deletion - so
servers are stored in a `heap` keyed by an object reference, and the
collection's `servers` list holds references in insertion order.  Heap
entries are never removed (deletion only drops the reference from
`servers`). -/
structure World where
  tenant_id : String
  region_name : String
  now : ℚ
  nextRef : Nat
  heap : List (Nat × Server)
  servers : List Nat
  calls : List SchedCall
deriving DecidableEq, Repr

/-- Dereference a server object. -/
def World.heapGet (w : World) (r : Nat) : Option Server :=
  (w.heap.find? (fun p => decide (p.1 = r))).map Prod.snd

/-- Mutate the server object at reference `r` by `f` (key-preserving). -/
def World.mapRef (w : World) (r : Nat) (f : Server → Server) : World :=
  { w with heap := w.heap.map (fun p => if p.1 = r then (p.1, f p.2) else p) }

/-- Overwrite a server object in place. -/
def World.heapSet (w : World) (r : Nat) (s : Server) : World :=
  w.mapRef r (fun _ => s)

/-- `setattr(server, "status", st)`: mutate the referenced server's status. -/
def World.setStatus (w : World) (r : Nat) (st : String) : World :=
  w.mapRef r (fun s => { s with status := st })

/-- Modelled from the spec: the Virtual Clock's `callLater(duration, f)`
(Twisted's `Clock` is an external collaborator).  Registers a callback at
absolute time `now + duration`, in FIFO registration order. -/
def World.callLater (w : World) (duration : ℚ) (r : Nat) (newStatus : String) : World :=
  { w with calls := w.calls ++ [⟨w.now + duration, r, newStatus⟩] }

/-- Insert a call before the first strictly later call, preserving FIFO
order among calls at the same instant. -/
def insertByTime (c : SchedCall) : List SchedCall → List SchedCall
  | [] => [c]
  | d :: rest => if c.time ≤ d.time then c :: d :: rest else d :: insertByTime c rest

/-- Stable sort of pending calls by fire time. -/
def sortCalls : List SchedCall → List SchedCall
  | [] => []
  | c :: rest => insertByTime c (sortCalls rest)

/-- Fire one callback. -/
def applyCall (w : World) (c : SchedCall) : World :=
  w.setStatus c.ref c.newStatus

/-- Modelled from the spec: the Virtual Clock's `advance(amount)`.  Moves
`now` forward and fires every callback whose time has been reached, in
nondecreasing time order, FIFO among callbacks scheduled for the same
instant. -/
def World.advance (w : World) (amount : ℚ) : World :=
  let target := w.now + amount
  let due := w.calls.filter (fun c => decide (c.time ≤ target))
  let rest := w.calls.filter (fun c => decide (target < c.time))
  (sortCalls due).foldl applyCall { w with now := target, calls := rest }

/-- Advance the clock through a sequence of increments. -/
def World.advanceAll (w : World) (ds : List ℚ) : World :=
  ds.foldl World.advance w

/-- Python `x or default` on an optional string: `None` and the empty string
are falsy and select the default. -/
def pyOrDefault (v : Option String) (d : String) : String :=
  match v with
  | none => d
  | some s => if s = "" then d else s

/-- The random draws that the source takes from `random.randrange` and
`mimic.util.helper.random_string`, made explicit so that creation is a
function of an injected entropy value: `idNum` is the
`randrange(9999999999)` draw for the server id, `seg0`/`seg1`/`seg2` the
three `ipsegment()` draws (private octets, then public octet), `adminPass`
the `random_string(12)` result. -/
structure Entropy where
  idNum : Nat
  seg0 : Nat
  seg1 : Nat
  seg2 : Nat
  adminPass : String
deriving DecidableEq, Repr

/-- The server id format string `'test-server{0}-id-{0}'`. -/
def genServerId (n : Nat) : String :=
  "test-server" ++ toString n ++ "-id-" ++ toString n

/-- Append a freshly constructed server to the collection (the effect of
`collection.servers.append(self)`, with a fresh object reference). -/
def World.appendServer (w : World) (s : Server) : World :=
  { w with heap := w.heap ++ [(w.nextRef, s)],
           servers := w.servers ++ [w.nextRef],
           nextRef := w.nextRef + 1 }

/-- `Server.from_creation_request_json`: validate the disk config, build the
`Server`, and append it to the collection.  Returns the reference of the new
server; `Except.error` models the `ValueError` raised on an invalid
`OS-DCF:diskConfig`. -/
def Server.from_creation_request_json (w : World) (creation_json : CreationJson)
    (e : Entropy) : Except String (World × Nat) :=
  let now := w.now
  let server_json := creation_json.server
  let disk_config := pyOrDefault server_json.diskConfig "AUTO"
  if ¬ (disk_config = "AUTO" ∨ disk_config = "MANUAL") then
    .error "OS-DCF:diskConfig not either AUTO or MANUAL"
  else
    let s : Server :=
      { server_name := server_json.name
        server_id := genServerId e.idNum
        metadata := (server_json.metadata).getD []
        creation_time := now
        update_time := now
        private_ips := [.v4 ("10.180." ++ toString e.seg0 ++ "." ++ toString e.seg1)]
        public_ips := [.v4 ("198.101.241." ++ toString e.seg2),
                       .v6 "2001:4800:780e:0510:d87b:9cbc:ff04:513a"]
        creation_request_json := creation_json
        flavor_ref := server_json.flavorRef
        image_ref := some ((server_json.imageRef).getD "")
        disk_config := disk_config
        status := "ACTIVE"
        admin_password := e.adminPass }
    .ok (w.appendServer s, w.nextRef)

/-- One entry of a `links` list: `{href, rel}`. -/
structure LinkJson where
  href : String
  rel : String
deriving DecidableEq, Repr

/-- `Server.links_json`: the self and bookmark links. -/
def Server.links_json (self : Server) (tenant_id : String)
    (absolutize_url : String → String) : List LinkJson :=
  [⟨absolutize_url ("v2/" ++ tenant_id ++ "/servers/" ++ self.server_id), "self"⟩,
   ⟨absolutize_url (tenant_id ++ "/servers/" ++ self.server_id), "bookmark"⟩]

/-- The brief list entry `{name, links, id}`. -/
structure BriefJson where
  name : String
  links : List LinkJson
  id : String
deriving DecidableEq, Repr

/-- `Server.brief_json`. -/
def Server.brief_json (self : Server) (tenant_id : String)
    (absolutize_url : String → String) : BriefJson :=
  ⟨self.server_name, self.links_json tenant_id absolutize_url, self.server_id⟩

/-- The `addresses` block `{private: [...], public: [...]}`. -/
structure AddressesJson where
  «private» : List AddrJson
  «public» : List AddrJson
deriving DecidableEq, Repr

/-- `Server.addresses_json`. -/
def Server.addresses_json (self : Server) : AddressesJson :=
  ⟨self.private_ips.map IPAddress.json, self.public_ips.map IPAddress.json⟩

/-- A flavor or image sub-object `{id, links}` of the detail payload. -/
structure RefWithLinks where
  id : String
  links : List LinkJson
deriving DecidableEq, Repr

/-- Modelled from the spec: `seconds_to_timestamp` lives in
`mimic.util.helper`, which is outside the verified sources; the spec says
only that timestamps are ISO-like renderings of the clock time, so it is
embedded as a fixed rendering of the rational time. -/
def seconds_to_timestamp (t : ℚ) : String :=
  "1970-01-01T+" ++ toString t

/-- The detail payload of a server, with the source's `static_defaults`
fields inlined as the constants they are (`template.update` overwrites none
of them). -/
structure DetailJson where
  power_state : Nat
  task_state : Option String
  accessIPv4 : String
  accessIPv6 : String
  key_name : Option String
  hostId : String
  progress : Nat
  user_id : String
  id : String
  disk_config : String
  vm_state : String
  addresses : AddressesJson
  created : String
  updated : String
  flavor : RefWithLinks
  image : Option RefWithLinks
  links : List LinkJson
  metadata : Md
  name : String
  tenant_id : String
  status : String
deriving DecidableEq, Repr

/-- `Server.detail_json`.  The `image` field is the `{id, links}` sub-object
when `image_ref` is not `None`, and the placeholder `''` (embedded as
`none`) otherwise.  The image bookmark href interpolates `self.flavor_ref`,
exactly as the source does. -/
def Server.detail_json (self : Server) (tenant_id : String)
    (absolutize_url : String → String) : DetailJson :=
  { power_state := 1
    task_state := none
    accessIPv4 := "198.101.241.238"
    accessIPv6 := "2001:4800:780e:0510:d87b:9cbc:ff04:513a"
    key_name := none
    hostId := "33ccb6c82f3625748b6f2338f54d8e9df07cc583251e001355569056"
    progress := 100
    user_id := "170454"
    id := self.server_id
    disk_config := self.disk_config
    vm_state := self.status
    addresses := self.addresses_json
    created := seconds_to_timestamp self.creation_time
    updated := seconds_to_timestamp self.update_time
    flavor := ⟨self.flavor_ref,
      [⟨absolutize_url (tenant_id ++ "/flavors/" ++ self.flavor_ref), "bookmark"⟩]⟩
    image :=
      match self.image_ref with
      | none => none
      | some ir => some ⟨ir,
          [⟨absolutize_url (tenant_id ++ "/images/" ++ self.flavor_ref), "bookmark"⟩]⟩
    links := self.links_json tenant_id absolutize_url
    metadata := self.metadata
    name := self.server_name
    tenant_id := tenant_id
    status := self.status }

/-- The creation response's `server` sub-object. -/
structure CreationResponseServer where
  disk_config : String
  id : String
  links : List LinkJson
  adminPass : String
deriving DecidableEq, Repr

/-- The creation response `{server: {...}}`. -/
structure CreationResponse where
  server : CreationResponseServer
deriving DecidableEq, Repr

/-- `Server.creation_response_json`. -/
def Server.creation_response_json (self : Server) (tenant_id : String)
    (absolutize_url : String → String) : CreationResponse :=
  ⟨⟨self.disk_config, self.server_id,
    self.links_json tenant_id absolutize_url, self.admin_password⟩⟩

/-- The body returned by a creation behavior: either the creation response
of a newly created server, or the error payload of the `fail` behavior. -/
inductive CreateBody where
  | created : CreationResponse → CreateBody
  | failed : JObj → CreateBody
deriving DecidableEq, Repr

/-- The observable result of running a creation behavior: the resulting
collection/clock state, the HTTP response code set on the request, and the
response body. -/
structure CreateOutcome where
  world : World
  code : Int
  body : CreateBody
deriving DecidableEq, Repr

/-- A post-creation hook: mutates the referenced server (and may schedule
callbacks) after it has been created and appended. -/
abbrev Hook := World → Nat → World

/-- A creation behavior, as in the source: a function of the collection
state, the request body, the URL absolutizer and the (injected) random
draws, producing a mutated state, a response code and a body.  `Except`
models a raised exception. -/
abbrev Behavior :=
  World → CreationJson → (String → String) → Entropy → Except String CreateOutcome

/-- `default_create_behavior`: create the server from the request, run the
optional hook, and answer 202 ACCEPTED with the creation response (built
after the hook, so hook mutations are reflected in it). -/
def default_create_behavior (hook : Option Hook) : Behavior :=
  fun w json absolutize_url e =>
    match Server.from_creation_request_json w json e with
    | .error msg => .error msg
    | .ok (w1, ref) =>
        let w2 :=
          match hook with
          | none => w1
          | some h => h w1 ref
        match w2.heapGet ref with
        | none => .error "unreachable: created server vanished"
        | some s => .ok ⟨w2, 202, .created (s.creation_response_json w2.tenant_id absolutize_url)⟩

/-- `default_with_hook`: the default creation behavior with the given hook. -/
def default_with_hook (function : Hook) : Behavior :=
  default_create_behavior (some function)

/-- Modelled from the spec: `invalid_resource` lives in `mimic.util.helper`,
outside the verified sources; per the spec the `fail` behavior "returns an
error payload embedding `code` and `message`", so it is embedded as the
structured object carrying both. -/
def invalid_resource (message : JLeaf) (code : Int) : JObj :=
  [("message", message), ("code", .jint code)]

/-- `create_fail_behavior`: fail without creating, with `code` defaulting to
500 and `message` to "Server creation failed.".  Passing a non-integer code
to `setResponseCode` raises in the HTTP layer, modelled as `Except.error`. -/
def create_fail_behavior (parameters : JObj) : Behavior :=
  fun w _json _absolutize_url _e =>
    let status_code := jobjGet parameters "code" (.jint 500)
    let failure_message := jobjGet parameters "message" (.jstr "Server creation failed.")
    match status_code with
    | .jint code => .ok ⟨w, code, .failed (invalid_resource failure_message code)⟩
    | .jstr _ => .error "TypeError: HTTP response code must be int"

/-- The hook installed by `create_building_behavior`: force the status to
BUILD and schedule the BUILD-to-ACTIVE callback after `duration` seconds. -/
def buildingHook (duration : ℚ) : Hook :=
  fun w ref => (w.setStatus ref "BUILD").callLater duration ref "ACTIVE"

/-- `create_building_behavior`: the default creation with the building hook.
A missing `"duration"` parameter raises `KeyError` at creator-invocation
time, modelled as `Except.error`. -/
def create_building_behavior (parameters : List (String × ℚ)) : Except String Behavior :=
  match (parameters.find? (fun kv => decide (kv.1 = "duration"))).map Prod.snd with
  | none => .error "KeyError: duration"
  | some duration => .ok (default_with_hook (buildingHook duration))

/-- `create_error_status_behavior`: the default creation with a hook forcing
the status to ERROR (the creator takes no parameters). -/
def create_error_status_behavior : Behavior :=
  default_with_hook (fun w ref => w.setStatus ref "ERROR")

/-- `metadata_to_creation_behavior`: inspect the request metadata for the
three magic keys, in the source's priority order, and build the matching
behavior; `none` means fall through to registry dispatch.  `Except.error`
models the exceptions raised on unparsable values. -/
def metadata_to_creation_behavior (metadata : Md) : Except String (Option Behavior) :=
  if Md.hasKey metadata "create_server_failure" then
    match loads (Md.getD metadata "create_server_failure" "") with
    | none => .error "ValueError: invalid JSON in create_server_failure"
    | some o => .ok (some (create_fail_behavior o))
  else if Md.hasKey metadata "server_building" then
    match pyFloat (Md.getD metadata "server_building" "") with
    | none => .error "ValueError: could not convert string to float"
    | some q =>
        match create_building_behavior [("duration", q)] with
        | .error msg => .error msg
        | .ok b => .ok (some b)
  else if Md.hasKey metadata "server_error" then
    .ok (some create_error_status_behavior)
  else
    .ok none

/-- A value of the attribute bundle handed to criterion predicates: a
string attribute, a metadata mapping, or Python `None` (what
`request_creation` passes for `metadata` when the request has none). -/
inductive AttrVal where
  | str : String → AttrVal
  | mapping : Md → AttrVal
  | pynone : AttrVal
deriving DecidableEq, Repr

/-- A `Criterion`: a named predicate over one attribute value.  The
predicate returns `none` when the Python original would raise (e.g. calling
`.get` on `None`). -/
structure Criterion where
  name : String
  predicate : AttrVal → Option Bool

/-- The loop body of `metadata_criterion`'s predicate: for each configured
`(key-regex is not used; key, value-regex)` pair, match the value regex
against the metadata value for that key, a missing key matching against the
empty string.  Calling `.get` on a non-mapping attribute (in particular
Python `None`) raises, modelled as `none`; with an empty configuration the
attribute is never touched and the predicate is vacuously true.  The
regular-expression engine is external and is abstracted as `rmatch`
(pattern, then candidate text). -/
def metadataPredicateGo (rmatch : String → String → Bool) (attrv : AttrVal) :
    List (String × String) → Option Bool
  | [] => some true
  | (k, v) :: rest =>
      match attrv with
      | .mapping m =>
          if rmatch v (Md.getD m k "") then metadataPredicateGo rmatch attrv rest
          else some false
      | _ => none

/-- `metadata_criterion`: the criterion registered for the `"metadata"`
attribute. -/
def metadata_criterion (rmatch : String → String → Bool)
    (value : List (String × String)) : Criterion :=
  ⟨"metadata", fun attrv => metadataPredicateGo rmatch attrv value⟩

/-- Modelled from the spec: `regexp_predicate` (from
`mimic.model.behaviors`, outside the verified sources) matches a regular
expression against a string attribute; applying it to a non-string raises,
modelled as `none`.  The regex engine is abstracted as `rmatch`. -/
def regexp_predicate (rmatch : String → String → Bool) (value : String) :
    AttrVal → Option Bool :=
  fun attrv =>
    match attrv with
    | .str s => some (rmatch value s)
    | _ => none

/-- `server_name_criterion`: the criterion registered for the
`"server_name"` attribute. -/
def server_name_criterion (rmatch : String → String → Bool) (value : String) : Criterion :=
  ⟨"server_name", regexp_predicate rmatch value⟩

/-- The attribute bundle `request_creation` builds for registry dispatch. -/
structure AttributeBundle where
  tenant_id : String
  server_name : String
  metadata : AttrVal
deriving Repr

/-- Dictionary lookup on the attribute bundle, by criterion name.  The
source only ever registers criteria for the three keys below. -/
def AttributeBundle.get (b : AttributeBundle) : String → AttrVal
  | "tenant_id" => .str b.tenant_id
  | "server_name" => .str b.server_name
  | "metadata" => b.metadata
  | _ => .pynone

/-- One registered entry of the behavior registry: its criteria and its
behavior. -/
structure RegisteredBehavior where
  criteria : List Criterion
  behavior : Behavior

/-- Modelled from the spec: the `BehaviorRegistry` of
`mimic.model.behaviors` (outside the verified sources) holds registered
entries in registration order. -/
structure BehaviorRegistry where
  registered_behaviors : List RegisteredBehavior

/-- Conjunction of a list of criteria over a bundle, short-circuiting, with
a raised exception (`none`) propagating. -/
def evalCriteria (b : AttributeBundle) : List Criterion → Option Bool
  | [] => some true
  | c :: rest =>
      match c.predicate (b.get c.name) with
      | none => none
      | some false => some false
      | some true => evalCriteria b rest

/-- First-match scan over the registered entries; `Except.error` models an
exception raised during criterion evaluation. -/
def behaviorSearch (attributes : AttributeBundle) :
    List RegisteredBehavior → Except String (Option Behavior)
  | [] => .ok none
  | entry :: rest =>
      match evalCriteria attributes entry.criteria with
      | none => .error "AttributeError: criterion evaluation raised"
      | some true => .ok (some entry.behavior)
      | some false => behaviorSearch attributes rest

/-- Modelled from the spec: `BehaviorRegistry.behavior_for_attributes`
scans entries in registration order and returns the first whose criteria
all match, falling back to the event's default behavior - for server
creation, `default_create_behavior` with no hook. -/
def behavior_for_attributes (reg : BehaviorRegistry) (attributes : AttributeBundle) :
    Except String Behavior :=
  match behaviorSearch attributes reg.registered_behaviors with
  | .error msg => .error msg
  | .ok (some b) => .ok b
  | .ok none => .ok (default_create_behavior none)

/-- `RegionalServerCollection.request_creation`: consult the metadata
override resolver first; only when it yields nothing, dispatch through the
behavior registry on the `{tenant_id, server_name, metadata}` bundle (where
an absent request metadata is passed as Python `None`); then run the chosen
behavior. -/
def request_creation (reg : BehaviorRegistry) (w : World) (creation_json : CreationJson)
    (absolutize_url : String → String) (e : Entropy) : Except String CreateOutcome :=
  match metadata_to_creation_behavior ((creation_json.server.metadata).getD []) with
  | .error msg => .error msg
  | .ok ob =>
      let chosen : Except String Behavior :=
        match ob with
        | some b => .ok b
        | none =>
            behavior_for_attributes reg
              ⟨w.tenant_id, creation_json.server.name,
               match creation_json.server.metadata with
               | some m => .mapping m
               | none => .pynone⟩
      match chosen with
      | .error msg => .error msg
      | .ok behavior => behavior w creation_json absolutize_url e

/-- `RegionalServerCollection.server_by_id`: linear scan of the collection,
returning the reference of the first server with the given id. -/
def World.server_by_id (w : World) (server_id : String) : Option Nat :=
  w.servers.find? (fun r =>
    match w.heapGet r with
    | some s => decide (s.server_id = server_id)
    | none => false)

/-- The body of a successful read: `{server: detail}`. -/
structure ReadResponse where
  server : DetailJson
deriving DecidableEq, Repr

/-- `RegionalServerCollection.request_read`: 404 with no body when the id is
absent, otherwise the detail payload (the response code is left at its 200
default). -/
def request_read (w : World) (server_id : String)
    (absolutize_url : String → String) : Int × Option ReadResponse :=
  match w.server_by_id server_id with
  | none => (404, none)
  | some r =>
      match w.heapGet r with
      | none => (404, none)
      | some s => (200, some ⟨s.detail_json w.tenant_id absolutize_url⟩)

/-- One entry of the list response: brief or detailed. -/
inductive ListedServer where
  | brief : BriefJson → ListedServer
  | detail : DetailJson → ListedServer
deriving DecidableEq, Repr

/-- Whether `need` occurs as a contiguous run at the head of `hay`. -/
def listIsPrefixOf : List Char → List Char → Bool
  | [], _ => true
  | _ :: _, [] => false
  | a :: as, b :: bs => a = b && listIsPrefixOf as bs

/-- Helper for the substring test. -/
def strContainsCore (need : List Char) : List Char → Bool
  | [] => need.isEmpty
  | c :: rest => listIsPrefixOf need (c :: rest) || strContainsCore need rest

/-- Python `needle in haystack` on strings: substring containment. -/
def strContains (haystack needle : String) : Bool :=
  strContainsCore needle.toList haystack.toList

/-- `RegionalServerCollection.request_list`: brief or detailed payloads for
the servers whose name contains `name` as a substring, in insertion
order. -/
def request_list (w : World) (include_details : Bool)
    (absolutize_url : String → String) (name : String) : List ListedServer :=
  ((w.servers.filterMap w.heapGet).filter
      (fun s => strContains s.server_name name)).map
    (fun s =>
      if include_details then .detail (s.detail_json w.tenant_id absolutize_url)
      else .brief (s.brief_json w.tenant_id absolutize_url))

/-- Remove the first element satisfying the predicate (Python
`list.remove`). -/
def removeFirstBy (p : Nat → Bool) : List Nat → List Nat
  | [] => []
  | x :: rest => if p x then rest else x :: removeFirstBy p rest

/-- The body of `request_delete` once the server has been found: when the
server's metadata carries a `delete_server_failure` descriptor with a truthy
`times`, decrement it, persist it back into the metadata, and answer 500
without removing the server; otherwise answer 204 and remove the server from
the collection (`list.remove` drops the first member equal to the found
server object).  `Except.error` models the exceptions the source raises on
unparsable descriptors. -/
def deleteTransient (w : World) (r : Nat) (server : Server) :
    Except String (Option (World × Int)) :=
  if Md.hasKey server.metadata "delete_server_failure" then
    match loads (Md.getD server.metadata "delete_server_failure" "") with
    | none => .error "ValueError: invalid JSON in delete_server_failure"
    | some srvfail =>
        match jobjLookup srvfail "times" with
        | none => .error "KeyError: times"
        | some (.jstr s) =>
            if s = "" then .ok none
            else .error "TypeError: unsupported operand type for -="
        | some (.jint n) =>
            if n = 0 then .ok none
            else
              .ok (some (w.heapSet r { server with
                metadata := Md.set server.metadata "delete_server_failure"
                  (dumps (jobjSet srvfail "times" (.jint (n - 1)))) }, 500))
  else .ok none

/-- The branches of `request_delete` once the server has been found: a
simulated transient failure, or plain removal. -/
def deleteFound (w : World) (r : Nat) (server : Server) : Except String (World × Int) :=
  match deleteTransient w r server with
  | .error msg => .error msg
  | .ok (some res) => .ok res
  | .ok none =>
      .ok ({ w with
              servers := removeFirstBy
                (fun r2 => decide (w.heapGet r2 = w.heapGet r)) w.servers }, 204)

/-- `RegionalServerCollection.request_delete`: 404 when the id is absent,
otherwise `deleteFound` on the found server. -/
def request_delete (w : World) (server_id : String) : Except String (World × Int) :=
  match w.server_by_id server_id with
  | none => .ok (w, 404)
  | some r =>
      match w.heapGet r with
      | none => .ok (w, 404)
      | some server => deleteFound w r server

/-- The server id carried by a list entry. -/
def ListedServer.idOf : ListedServer → String
  | .brief b => b.id
  | .detail d => d.id

/-- A fresh regional collection with its virtual clock at zero: no servers,
no pending callbacks. -/
def initialWorld (tenant_id region_name : String) : World :=
  ⟨tenant_id, region_name, 0, 0, [], [], []⟩

/-- The creation behaviors defined by this module: the default, and the
products of the `fail`, `build` and `error` creators. -/
def ModuleBehavior (b : Behavior) : Prop :=
  b = default_create_behavior none ∨
  (∃ o, b = create_fail_behavior o) ∨
  (∃ q, b = default_with_hook (buildingHook q)) ∨
  b = create_error_status_behavior

/-- A registry whose registered entries all carry behaviors of this module. -/
def ModuleRegistry (reg : BehaviorRegistry) : Prop :=
  ∀ entry ∈ reg.registered_behaviors, ModuleBehavior entry.behavior

/-- One observable operation on a collection, as a relation between the
state before and after: a successful creation request (through any registry
of module behaviors), a successful deletion request, or an advancement of
the virtual clock.  Reads and listings do not mutate the state. -/
inductive Step : World → World → Prop where
  | create (w : World) (reg : BehaviorRegistry) (json : CreationJson)
      (absolutize_url : String → String) (e : Entropy) (out : CreateOutcome) :
      ModuleRegistry reg → request_creation reg w json absolutize_url e = .ok out →
      Step w out.world
  | del (w : World) (sid : String) (w' : World) (code : Int) :
      request_delete w sid = .ok (w', code) → Step w w'
  | advance (w : World) (d : ℚ) : 0 ≤ d → Step w (w.advance d)

/-- The worlds reachable from a fresh collection by the observable
operations. -/
inductive Reachable : World → Prop where
  | init (tenant_id region_name : String) : Reachable (initialWorld tenant_id region_name)
  | step {w w' : World} : Reachable w → Step w w' → Reachable w'

/-- The structural invariant of reachable worlds: heap keys are below the
allocation counter, every pending callback writes "ACTIVE" to a currently
BUILD server, no two pending callbacks target the same server, and every
server's status is one of ACTIVE, BUILD, ERROR. -/
def GoodWorld (w : World) : Prop :=
  (∀ p ∈ w.heap, p.1 < w.nextRef) ∧
  (∀ c ∈ w.calls, c.newStatus = "ACTIVE" ∧
    (w.heapGet c.ref).map Server.status = some "BUILD") ∧
  w.calls.Pairwise (fun a b => a.ref ≠ b.ref) ∧
  (∀ p ∈ w.heap, p.2.status = "ACTIVE" ∨ p.2.status = "BUILD" ∨ p.2.status = "ERROR")

/-- Fixture: an empty collection for tenant "tid" in region "ORD". -/
def w0 : World := initialWorld "tid" "ORD"

/-- Fixture: a concrete entropy value. -/
def e0 : Entropy := ⟨7, 1, 2, 3, "pw"⟩

/-- Fixture: a concrete creation request with the given metadata. -/
def reqWith (md : Option Md) : CreationJson :=
  ⟨⟨"srv", md, "flav", some "img", none⟩⟩

/-- Fixture: a registry with no registered behaviors. -/
def reg0 : BehaviorRegistry := ⟨[]⟩

/-- Fixture: a regex-match stand-in that matches everything. -/
def rmAll : String → String → Bool := fun _ _ => true

/-- Fixture: a registry with one behavior registered under a metadata
criterion requiring key "k" to match ".*". -/
def regM : BehaviorRegistry :=
  ⟨[⟨[metadata_criterion rmAll [("k", ".*")]], create_error_status_behavior⟩]⟩

/-- Fixture: the world after creating one building server (duration 5) in
`w0`. -/
def wBuild : World :=
  match request_creation reg0 w0 (reqWith (some [("server_building", "5")])) id e0 with
  | .ok o => o.world
  | .error _ => w0

/-- Fixture: `wBuild` after deleting the building server before its
callback has fired. -/
def wBuildDel : World :=
  match request_delete wBuild (genServerId 7) with
  | .ok p => p.1
  | .error _ => wBuild

/-- Fixture: the world after creating one server carrying a
`delete_server_failure` descriptor with two remaining failures. -/
def wDel : World :=
  match request_creation reg0 w0
      (reqWith (some [("delete_server_failure", "\x7b\"times\": 2\x7d")])) id e0 with
  | .ok o => o.world
  | .error _ => w0

/-- The attribute bundle `request_creation` hands to registry dispatch. -/
def creationBundle (w : World) (json : CreationJson) : AttributeBundle :=
  ⟨w.tenant_id, json.server.name,
   match json.server.metadata with
   | some m => .mapping m
   | none => .pynone⟩

/-- A placeholder server value, used only to totalize extractions in
concrete statements. -/
def dummyServer : Server :=
  ⟨"", "", [], 0, 0, [], [], "", "", none, "", "", ⟨⟨"", none, "", none, none⟩⟩⟩

/-- The disk config of the server created by a creation result, when any. -/
def diskConfigOfResult : Except String (World × Nat) → Option String
  | .ok p => (p.1.heapGet p.2).map Server.disk_config
  | .error _ => none

/-- Fixture: a creation request whose `OS-DCF:diskConfig` is present but
empty. -/
def jsonEmptyDisk : CreationJson := ⟨⟨"srv", none, "flav", some "img", some ""⟩⟩

/-- Fixture: a creation request with no metadata at all. -/
def jsonNoMd : CreationJson := ⟨⟨"srv", none, "flav", some "img", none⟩⟩

/-- Fixture: metadata asking for a creation failure with code 503 and
message "boom". -/
def mdFail : Md := [("create_server_failure", "\x7b\"code\": 503, \"message\": \"boom\"\x7d")]

/-- Fixture: the decoded `create_server_failure` payload of `mdFail`. -/
def oFail : JObj := [("code", .jint 503), ("message", .jstr "boom")]

/-- Fixture: the world after one default creation in `w0`. -/
def wActive : World :=
  match request_creation reg0 w0 (reqWith none) id e0 with
  | .ok o => o.world
  | .error _ => w0

/-- Fixture: the server created in `wActive`. -/
def sActive : Server := (wActive.heapGet 0).getD dummyServer

/-- Fixture: the world after a second default creation with the same
entropy draws, on top of `wActive`. -/
def wTwice : World :=
  match request_creation reg0 wActive (reqWith none) id e0 with
  | .ok o => o.world
  | .error _ => w0

/-- Fixture: the server created in `wDel`. -/
def sDel : Server := (wDel.heapGet 0).getD dummyServer

/-- Fixture: the full outcome of the default creation in `w0`. -/
def outActive : CreateOutcome :=
  (request_creation reg0 w0 (reqWith none) id e0).toOption.getD ⟨w0, 0, .failed []⟩

/-! ### Helper lemmas about the heap, the clock and the operations -/

theorem find?_congruent {α : Type} (l : List α) (p q : α → Bool)
    (h : ∀ a ∈ l, p a = q a) : l.find? p = l.find? q := by
  induction l with
  | nil => rfl
  | cons a t ih =>
      have ha := h a (by simp)
      rw [List.find?_cons, List.find?_cons, ← ha]
      cases hp : p a
      · simp only
        exact ih (fun x hx => h x (by simp [hx]))
      · simp only

theorem find?_map_keyed (t : List (Nat × Server)) (r r' : Nat) (f : Server → Server) :
    ((t.map (fun p => if p.1 = r then (p.1, f p.2) else p)).find?
        (fun p => decide (p.1 = r'))).map Prod.snd =
      if r' = r then
        ((t.find? (fun p => decide (p.1 = r'))).map Prod.snd).map f
      else (t.find? (fun p => decide (p.1 = r'))).map Prod.snd := by
  induction t with
  | nil => by_cases h : r' = r <;> simp [h]
  | cons p t ih =>
      rcases p with ⟨k, v⟩
      by_cases hkr' : k = r'
      · subst hkr'
        by_cases hk : k = r
        · subst hk
          simp [List.find?_cons]
        · have hne : ¬ k = r := hk
          simp [List.find?_cons, hne]
      · by_cases hk : k = r
        · subst hk
          have hg : (if (k, v).1 = k then ((k, v).1, f (k, v).2) else (k, v))
              = (k, f v) := by simp
          have hd1 : (decide ((k, f v).1 = r')) = false := decide_eq_false hkr'
          have hd2 : (decide ((k, v).1 = r')) = false := decide_eq_false hkr'
          rw [List.map_cons, hg, List.find?_cons, List.find?_cons]
          simp only [hd1, hd2]
          exact ih
        · have hg : (if (k, v).1 = r then ((k, v).1, f (k, v).2) else (k, v))
              = (k, v) := by simp [hk]
          have hd2 : (decide ((k, v).1 = r')) = false := decide_eq_false hkr'
          rw [List.map_cons, hg, List.find?_cons, List.find?_cons]
          simp only [hd2]
          exact ih

theorem heapGet_mapRef (w : World) (r : Nat) (f : Server → Server) (r' : Nat) :
    (w.mapRef r f).heapGet r' =
      if r' = r then (w.heapGet r').map f else w.heapGet r' :=
  find?_map_keyed w.heap r r' f

theorem heapGet_setStatus (w : World) (r : Nat) (st : String) (r' : Nat) :
    (w.setStatus r st).heapGet r' =
      if r' = r then (w.heapGet r').map (fun s => { s with status := st })
      else w.heapGet r' :=
  heapGet_mapRef w r _ r'

theorem heapGet_heapSet (w : World) (r : Nat) (x : Server) (r' : Nat) :
    (w.heapSet r x).heapGet r' =
      if r' = r then (w.heapGet r').map (fun _ => x) else w.heapGet r' :=
  heapGet_mapRef w r _ r'

theorem heapGet_none_iff (w : World) (r : Nat) :
    w.heapGet r = none ↔ ∀ p ∈ w.heap, p.1 ≠ r := by
  unfold World.heapGet
  rw [Option.map_eq_none', List.find?_eq_none]
  simp

theorem heapGet_mem_heap {w : World} {r : Nat} {s : Server}
    (h : w.heapGet r = some s) : (r, s) ∈ w.heap := by
  unfold World.heapGet at h
  rw [Option.map_eq_some'] at h
  obtain ⟨p, hp, hps⟩ := h
  have h1 := List.find?_some hp
  have h2 := List.mem_of_find?_eq_some hp
  simp only [decide_eq_true_eq] at h1
  rcases p with ⟨k, v⟩
  simp only at h1 hps
  subst h1; subst hps; exact h2

theorem heapGet_appendServer_old (w : World) (s : Server) (r : Nat)
    (h : r ≠ w.nextRef) : (w.appendServer s).heapGet r = w.heapGet r := by
  unfold World.appendServer World.heapGet
  simp only [List.find?_append]
  rcases hf : w.heap.find? (fun p => decide (p.1 = r)) with _ | p
  · simp [List.find?_cons, Ne.symm h]
  · rw [hf]
    rfl

theorem heapGet_appendServer_new (w : World) (s : Server)
    (h : ∀ p ∈ w.heap, p.1 ≠ w.nextRef) :
    (w.appendServer s).heapGet w.nextRef = some s := by
  unfold World.appendServer World.heapGet
  simp only [List.find?_append]
  have hf : w.heap.find? (fun p => decide (p.1 = w.nextRef)) = none := by
    rw [List.find?_eq_none]; simpa using h
  simp [hf, List.find?_cons]

theorem foldl_applyCall_eta (cs : List SchedCall) (w : World) :
    cs.foldl applyCall w = { w with heap := (cs.foldl applyCall w).heap } := by
  induction cs generalizing w with
  | nil => rfl
  | cons c t ih =>
      show t.foldl applyCall (applyCall w c) = _
      rw [ih (applyCall w c)]
      rfl

theorem advance_def (w : World) (d : ℚ) :
    w.advance d =
      (sortCalls (w.calls.filter (fun c => decide (c.time ≤ w.now + d)))).foldl applyCall
        { w with now := w.now + d,
                 calls := w.calls.filter (fun c => decide (w.now + d < c.time)) } := rfl

theorem advance_now (w : World) (d : ℚ) : (w.advance d).now = w.now + d := by
  rw [advance_def, foldl_applyCall_eta]

theorem advance_calls (w : World) (d : ℚ) :
    (w.advance d).calls = w.calls.filter (fun c => decide (w.now + d < c.time)) := by
  rw [advance_def, foldl_applyCall_eta]

theorem advance_servers (w : World) (d : ℚ) : (w.advance d).servers = w.servers := by
  rw [advance_def, foldl_applyCall_eta]

theorem advance_tenant (w : World) (d : ℚ) : (w.advance d).tenant_id = w.tenant_id := by
  rw [advance_def, foldl_applyCall_eta]

theorem advance_nextRef (w : World) (d : ℚ) : (w.advance d).nextRef = w.nextRef := by
  rw [advance_def, foldl_applyCall_eta]

theorem mem_insertByTime {a c : SchedCall} {l : List SchedCall} :
    a ∈ insertByTime c l ↔ a = c ∨ a ∈ l := by
  induction l with
  | nil => simp [insertByTime]
  | cons d t ih =>
      unfold insertByTime
      split
      · simp [List.mem_cons]
      · simp only [List.mem_cons, ih]
        tauto

theorem mem_sortCalls {a : SchedCall} {l : List SchedCall} :
    a ∈ sortCalls l ↔ a ∈ l := by
  induction l with
  | nil => simp [sortCalls]
  | cons c t ih => simp [sortCalls, mem_insertByTime, ih]

theorem foldl_applyCall_heapGet_of_not_target (cs : List SchedCall) (w : World)
    (r : Nat) (h : ∀ c ∈ cs, c.ref ≠ r) :
    (cs.foldl applyCall w).heapGet r = w.heapGet r := by
  induction cs generalizing w with
  | nil => rfl
  | cons c t ih =>
      show (t.foldl applyCall (applyCall w c)).heapGet r = _
      rw [ih (applyCall w c) (fun c' hc' => h c' (by simp [hc']))]
      show (w.setStatus c.ref c.newStatus).heapGet r = _
      rw [heapGet_setStatus, if_neg (fun hrc => h c (by simp) hrc.symm)]

theorem foldl_applyCall_heapGet_target (cs : List SchedCall) (w : World) (r : Nat)
    (hA : ∀ c ∈ cs, c.ref = r → c.newStatus = "ACTIVE")
    (hm : r ∈ cs.map SchedCall.ref) :
    (cs.foldl applyCall w).heapGet r =
      (w.heapGet r).map (fun s => { s with status := "ACTIVE" }) := by
  induction cs generalizing w with
  | nil => simp at hm
  | cons c t ih =>
      show (t.foldl applyCall (applyCall w c)).heapGet r = _
      by_cases hcr : c.ref = r
      · have hred : (applyCall w c).heapGet r =
            (w.heapGet r).map (fun s => { s with status := "ACTIVE" }) := by
          have h2 : c.newStatus = "ACTIVE" := hA c (by simp) hcr
          calc (applyCall w c).heapGet r
              = (w.heapGet r).map (fun s => { s with status := c.newStatus }) := by
                have h1 := heapGet_setStatus w c.ref c.newStatus r
                rw [if_pos hcr.symm] at h1
                exact h1
            _ = (w.heapGet r).map (fun s => { s with status := "ACTIVE" }) := by rw [h2]
        by_cases hm' : r ∈ t.map SchedCall.ref
        · rw [ih (applyCall w c) (fun c' hc' => hA c' (by simp [hc'])) hm', hred]
          cases w.heapGet r <;> rfl
        · rw [foldl_applyCall_heapGet_of_not_target t (applyCall w c) r
              (fun c' hc' hc'r => hm' (List.mem_map.mpr ⟨c', hc', hc'r⟩)), hred]
      · have hm' : r ∈ t.map SchedCall.ref := by
          rcases List.mem_map.mp hm with ⟨c', hc', hc'r⟩
          rcases List.mem_cons.mp hc' with h | h
          · exact absurd (h ▸ hc'r) hcr
          · exact List.mem_map.mpr ⟨c', h, hc'r⟩
        rw [ih (applyCall w c) (fun c' hc' => hA c' (by simp [hc'])) hm']
        have h1 := heapGet_setStatus w c.ref c.newStatus r
        rw [if_neg (fun hrc => hcr hrc.symm)] at h1
        rw [show (applyCall w c).heapGet r = w.heapGet r from h1]

theorem advance_heapGet (w : World) (d : ℚ) (r : Nat)
    (hA : ∀ c ∈ w.calls, c.ref = r → c.newStatus = "ACTIVE") :
    (w.advance d).heapGet r =
      if ∃ c ∈ w.calls, c.ref = r ∧ c.time ≤ w.now + d
      then (w.heapGet r).map (fun s => { s with status := "ACTIVE" })
      else w.heapGet r := by
  rw [advance_def]
  by_cases hex : ∃ c ∈ w.calls, c.ref = r ∧ c.time ≤ w.now + d
  · rw [if_pos hex]
    obtain ⟨c, hc, hcr, hct⟩ := hex
    have hdue : c ∈ w.calls.filter (fun c => decide (c.time ≤ w.now + d)) :=
      List.mem_filter.mpr ⟨hc, by simpa using hct⟩
    exact foldl_applyCall_heapGet_target _ _ r
      (fun c' hc' => hA c' (List.mem_filter.mp (mem_sortCalls.mp hc')).1)
      (List.mem_map.mpr ⟨c, mem_sortCalls.mpr hdue, hcr⟩)
  · rw [if_neg hex]
    refine foldl_applyCall_heapGet_of_not_target _ _ r (fun c hc hcr => hex ?_)
    have hc' := List.mem_filter.mp (mem_sortCalls.mp hc)
    exact ⟨c, hc'.1, hcr, by simpa using hc'.2⟩

theorem advance_heapGet_of_no_call (w : World) (d : ℚ) (r : Nat)
    (h : ∀ c ∈ w.calls, c.ref ≠ r) : (w.advance d).heapGet r = w.heapGet r := by
  rw [advance_def]
  exact foldl_applyCall_heapGet_of_not_target _ _ r
    (fun c hc => h c (List.mem_filter.mp (mem_sortCalls.mp hc)).1)

theorem advance_no_call_preserved (w : World) (d : ℚ) (r : Nat)
    (h : ∀ c ∈ w.calls, c.ref ≠ r) : ∀ c ∈ (w.advance d).calls, c.ref ≠ r := by
  intro c hc
  rw [advance_calls] at hc
  exact h c (List.mem_filter.mp hc).1

theorem advanceAll_of_no_call (w : World) (ds : List ℚ) (r : Nat)
    (h : ∀ c ∈ w.calls, c.ref ≠ r) :
    (w.advanceAll ds).heapGet r = w.heapGet r := by
  induction ds generalizing w with
  | nil => rfl
  | cons d t ih =>
      show ((w.advance d).advanceAll t).heapGet r = _
      rw [ih (w.advance d) (advance_no_call_preserved w d r h),
        advance_heapGet_of_no_call w d r h]

theorem server_by_id_found {w : World} {sid : String} {r : Nat}
    (h : w.server_by_id sid = some r) :
    r ∈ w.servers ∧ ∃ s, w.heapGet r = some s ∧ s.server_id = sid := by
  unfold World.server_by_id at h
  refine ⟨List.mem_of_find?_eq_some h, ?_⟩
  have hp := List.find?_some h
  rcases hg : w.heapGet r with _ | s
  · rw [hg] at hp; cases hp
  · rw [hg] at hp
    simp only [decide_eq_true_eq] at hp
    exact ⟨s, rfl, hp⟩

theorem server_by_id_none {w : World} {sid : String}
    (h : ∀ r ∈ w.servers, ∀ s, w.heapGet r = some s → s.server_id ≠ sid) :
    w.server_by_id sid = none := by
  unfold World.server_by_id
  rw [List.find?_eq_none]
  intro r hr
  rcases hg : w.heapGet r with _ | s
  · simp
  · simpa using h r hr s hg

theorem server_by_id_congruent (w w' : World) (hs : w'.servers = w.servers)
    (hh : ∀ r ∈ w.servers, w'.heapGet r = w.heapGet r) (sid : String) :
    w'.server_by_id sid = w.server_by_id sid := by
  unfold World.server_by_id
  rw [hs]
  exact find?_congruent _ _ _ (fun r hr => by rw [hh r hr])

theorem removeFirstBy_eq_erase (l : List Nat) (p : Nat → Bool) (r : Nat)
    (h : ∀ x ∈ l, p x = true ↔ x = r) : removeFirstBy p l = l.erase r := by
  induction l with
  | nil => rfl
  | cons x t ih =>
      by_cases hx : x = r
      · subst hx
        rw [show removeFirstBy p (x :: t) = t by
              unfold removeFirstBy; rw [if_pos ((h x (by simp)).mpr rfl)]]
        rw [List.erase_cons_head]
      · have hpx : p x = false := by
          rcases hb : p x with _ | _
          · rfl
          · exact absurd ((h x (by simp)).mp hb) hx
        have hstep : removeFirstBy p (x :: t) = x :: removeFirstBy p t := by
          simp only [removeFirstBy, hpx]
          simp
        rw [hstep, List.erase_cons_tail (by simpa using hx),
          ih (fun y hy => h y (by simp [hy]))]

theorem hasKey_of_get? {m : Md} {k v : String} (h : Md.get? m k = some v) :
    Md.hasKey m k = true := by
  simp [Md.hasKey, h]

theorem hasKey_of_get?_none {m : Md} {k : String} (h : Md.get? m k = none) :
    Md.hasKey m k = false := by
  simp [Md.hasKey, h]

theorem getD_of_get? {m : Md} {k v d : String} (h : Md.get? m k = some v) :
    Md.getD m k d = v := by
  simp [Md.getD, h]

theorem resolver_fail {md : Md} {v : String} {o : JObj}
    (hv : Md.get? md "create_server_failure" = some v) (ho : loads v = some o) :
    metadata_to_creation_behavior md = .ok (some (create_fail_behavior o)) := by
  unfold metadata_to_creation_behavior
  rw [hasKey_of_get? hv, getD_of_get? hv, ho]
  rfl

theorem resolver_build {md : Md} {v : String} {q : ℚ}
    (h1 : Md.get? md "create_server_failure" = none)
    (hv : Md.get? md "server_building" = some v) (hq : pyFloat v = some q) :
    metadata_to_creation_behavior md = .ok (some (default_with_hook (buildingHook q))) := by
  unfold metadata_to_creation_behavior
  rw [hasKey_of_get?_none h1, hasKey_of_get? hv, getD_of_get? hv, hq]
  rfl

theorem resolver_error {md : Md}
    (h1 : Md.get? md "create_server_failure" = none)
    (h2 : Md.get? md "server_building" = none)
    (hv : Md.hasKey md "server_error" = true) :
    metadata_to_creation_behavior md = .ok (some create_error_status_behavior) := by
  unfold metadata_to_creation_behavior
  rw [hasKey_of_get?_none h1, hasKey_of_get?_none h2, hv]
  rfl

theorem resolver_none {md : Md}
    (h1 : Md.get? md "create_server_failure" = none)
    (h2 : Md.get? md "server_building" = none)
    (h3 : Md.get? md "server_error" = none) :
    metadata_to_creation_behavior md = .ok none := by
  unfold metadata_to_creation_behavior
  rw [hasKey_of_get?_none h1, hasKey_of_get?_none h2, hasKey_of_get?_none h3]
  rfl

theorem default_create_ok (w : World) (json : CreationJson) (e : Entropy)
    (hdc : pyOrDefault json.server.diskConfig "AUTO" = "AUTO" ∨
           pyOrDefault json.server.diskConfig "AUTO" = "MANUAL") :
    ∃ s : Server,
      Server.from_creation_request_json w json e = .ok (w.appendServer s, w.nextRef) ∧
      s.status = "ACTIVE" ∧ s.creation_time = w.now ∧ s.update_time = w.now ∧
      s.server_id = genServerId e.idNum ∧
      s.disk_config = pyOrDefault json.server.diskConfig "AUTO" ∧
      s.metadata = (json.server.metadata).getD [] ∧
      s.image_ref = some ((json.server.imageRef).getD "") ∧
      s.flavor_ref = json.server.flavorRef ∧
      s.server_name = json.server.name := by
  have h1 : Server.from_creation_request_json w json e = .ok (w.appendServer
      { server_name := json.server.name
        server_id := genServerId e.idNum
        metadata := (json.server.metadata).getD []
        creation_time := w.now
        update_time := w.now
        private_ips := [.v4 ("10.180." ++ toString e.seg0 ++ "." ++ toString e.seg1)]
        public_ips := [.v4 ("198.101.241." ++ toString e.seg2),
                       .v6 "2001:4800:780e:0510:d87b:9cbc:ff04:513a"]
        creation_request_json := json
        flavor_ref := json.server.flavorRef
        image_ref := some ((json.server.imageRef).getD "")
        disk_config := pyOrDefault json.server.diskConfig "AUTO"
        status := "ACTIVE"
        admin_password := e.adminPass }, w.nextRef) := by
    simp only [Server.from_creation_request_json]
    rw [if_neg (not_not_intro hdc)]
  exact ⟨_, h1, rfl, rfl, rfl, rfl, rfl, rfl, rfl, rfl, rfl⟩

theorem request_creation_resolver_some {reg : BehaviorRegistry} {w : World}
    {json : CreationJson} {absolutize_url : String → String} {e : Entropy} {b : Behavior}
    (h : metadata_to_creation_behavior ((json.server.metadata).getD []) = .ok (some b)) :
    request_creation reg w json absolutize_url e = b w json absolutize_url e := by
  unfold request_creation
  rw [h]

theorem request_creation_fallthrough {reg : BehaviorRegistry} {w : World}
    {json : CreationJson} {absolutize_url : String → String} {e : Entropy}
    (h : metadata_to_creation_behavior ((json.server.metadata).getD []) = .ok none) :
    request_creation reg w json absolutize_url e =
      match behavior_for_attributes reg
          ⟨w.tenant_id, json.server.name,
           match json.server.metadata with
           | some m => .mapping m
           | none => .pynone⟩ with
      | .error msg => .error msg
      | .ok b => b w json absolutize_url e := by
  unfold request_creation
  rw [h]

theorem default_none_ok (w : World) (json : CreationJson)
    (absolutize_url : String → String) (e : Entropy)
    (hdc : pyOrDefault json.server.diskConfig "AUTO" = "AUTO" ∨
           pyOrDefault json.server.diskConfig "AUTO" = "MANUAL")
    (hfresh : ∀ p ∈ w.heap, p.1 ≠ w.nextRef) :
    ∃ s : Server,
      default_create_behavior none w json absolutize_url e =
        .ok ⟨w.appendServer s, 202,
             .created (s.creation_response_json w.tenant_id absolutize_url)⟩ ∧
      s.status = "ACTIVE" ∧ s.creation_time = w.now ∧ s.update_time = w.now ∧
      s.server_id = genServerId e.idNum ∧
      s.metadata = (json.server.metadata).getD [] := by
  obtain ⟨s, h1, hst, hct, hut, hid, _, hmd, _, _, _⟩ := default_create_ok w json e hdc
  refine ⟨s, ?_, hst, hct, hut, hid, hmd⟩
  unfold default_create_behavior
  rw [h1]
  show (match (w.appendServer s).heapGet w.nextRef with
        | none => (Except.error "unreachable: created server vanished" : Except String CreateOutcome)
        | some s' => Except.ok ⟨w.appendServer s, 202,
            .created (s'.creation_response_json (w.appendServer s).tenant_id absolutize_url)⟩) = _
  rw [heapGet_appendServer_new w s hfresh]
  rfl

theorem building_behavior_ok (w : World) (json : CreationJson)
    (absolutize_url : String → String) (e : Entropy) (q : ℚ)
    (hdc : pyOrDefault json.server.diskConfig "AUTO" = "AUTO" ∨
           pyOrDefault json.server.diskConfig "AUTO" = "MANUAL")
    (hfresh : ∀ p ∈ w.heap, p.1 ≠ w.nextRef) :
    ∃ s : Server,
      default_with_hook (buildingHook q) w json absolutize_url e =
        .ok ⟨((w.appendServer s).setStatus w.nextRef "BUILD").callLater q w.nextRef "ACTIVE",
             202,
             .created (Server.creation_response_json { s with status := "BUILD" }
               w.tenant_id absolutize_url)⟩ ∧
      s.status = "ACTIVE" ∧ s.creation_time = w.now ∧ s.update_time = w.now ∧
      s.server_id = genServerId e.idNum ∧
      s.metadata = (json.server.metadata).getD [] := by
  obtain ⟨s, h1, hst, hct, hut, hid, _, hmd, _, _, _⟩ := default_create_ok w json e hdc
  refine ⟨s, ?_, hst, hct, hut, hid, hmd⟩
  unfold default_with_hook default_create_behavior
  rw [h1]
  show (match (buildingHook q (w.appendServer s) w.nextRef).heapGet w.nextRef with
        | none => (Except.error "unreachable: created server vanished" : Except String CreateOutcome)
        | some s' => Except.ok ⟨buildingHook q (w.appendServer s) w.nextRef, 202,
            .created (s'.creation_response_json
              (buildingHook q (w.appendServer s) w.nextRef).tenant_id absolutize_url)⟩) = _
  have hg : (buildingHook q (w.appendServer s) w.nextRef).heapGet w.nextRef =
      some { s with status := "BUILD" } := by
    show (((w.appendServer s).setStatus w.nextRef "BUILD").callLater q w.nextRef
        "ACTIVE").heapGet w.nextRef = _
    have : (((w.appendServer s).setStatus w.nextRef "BUILD").callLater q w.nextRef
        "ACTIVE").heapGet w.nextRef =
        ((w.appendServer s).setStatus w.nextRef "BUILD").heapGet w.nextRef := rfl
    rw [this, heapGet_setStatus, if_pos rfl, heapGet_appendServer_new w s hfresh]
    rfl
  rw [hg]
  rfl

theorem error_behavior_ok (w : World) (json : CreationJson)
    (absolutize_url : String → String) (e : Entropy)
    (hdc : pyOrDefault json.server.diskConfig "AUTO" = "AUTO" ∨
           pyOrDefault json.server.diskConfig "AUTO" = "MANUAL")
    (hfresh : ∀ p ∈ w.heap, p.1 ≠ w.nextRef) :
    ∃ s : Server,
      create_error_status_behavior w json absolutize_url e =
        .ok ⟨(w.appendServer s).setStatus w.nextRef "ERROR", 202,
             .created (Server.creation_response_json { s with status := "ERROR" }
               w.tenant_id absolutize_url)⟩ ∧
      s.status = "ACTIVE" ∧ s.creation_time = w.now ∧ s.update_time = w.now := by
  obtain ⟨s, h1, hst, hct, hut, _, _, _, _, _, _⟩ := default_create_ok w json e hdc
  refine ⟨s, ?_, hst, hct, hut⟩
  unfold create_error_status_behavior default_with_hook default_create_behavior
  rw [h1]
  show (match ((w.appendServer s).setStatus w.nextRef "ERROR").heapGet w.nextRef with
        | none => (Except.error "unreachable: created server vanished" : Except String CreateOutcome)
        | some s' => Except.ok ⟨(w.appendServer s).setStatus w.nextRef "ERROR", 202,
            .created (s'.creation_response_json
              ((w.appendServer s).setStatus w.nextRef "ERROR").tenant_id absolutize_url)⟩) = _
  rw [heapGet_setStatus, if_pos rfl, heapGet_appendServer_new w s hfresh]
  rfl

theorem strContainsCore_nil (l : List Char) : strContainsCore [] l = true := by
  induction l with
  | nil => rfl
  | cons c t ih => simp [strContainsCore, listIsPrefixOf]

theorem strContains_empty (h : String) : strContains h "" = true :=
  strContainsCore_nil h.toList

theorem jobjGet_eq (o : JObj) (k : String) (d : JLeaf) :
    jobjGet o k d = (jobjLookup o k).getD d := rfl

theorem request_creation_dispatch_ok {reg : BehaviorRegistry} {w : World}
    {json : CreationJson} {absolutize_url : String → String} {e : Entropy} {b : Behavior}
    (h : metadata_to_creation_behavior ((json.server.metadata).getD []) = .ok none)
    (hb : behavior_for_attributes reg (creationBundle w json) = .ok b) :
    request_creation reg w json absolutize_url e = b w json absolutize_url e := by
  rw [request_creation_fallthrough h]
  have hb' : behavior_for_attributes reg
      ⟨w.tenant_id, json.server.name,
       match json.server.metadata with
       | some m => .mapping m
       | none => .pynone⟩ = .ok b := hb
  rw [hb']

/-! ### The claims -/

/-- C10: for every server with a non-empty `image_ref`, the image
sub-object of the detail payload — as returned by read and by the detailed
list — carries the `image_ref` in its `id` field but builds its bookmark
link's href from the server's `flavor_ref`, not its `image_ref`. -/
theorem claim10_image_bookmark_from_flavor (w : World) (r : Nat) (s : Server)
    (absolutize_url : String → String) (ir : String)
    (hs : w.heapGet r = some s) (hir : s.image_ref = some ir) (_hir2 : ir ≠ "") :
    (s.detail_json w.tenant_id absolutize_url).image =
      some ⟨ir, [⟨absolutize_url (w.tenant_id ++ "/images/" ++ s.flavor_ref),
                 "bookmark"⟩]⟩ ∧
    (∀ sid, w.server_by_id sid = some r →
      request_read w sid absolutize_url =
        (200, some ⟨s.detail_json w.tenant_id absolutize_url⟩)) ∧
    (r ∈ w.servers →
      ListedServer.detail (s.detail_json w.tenant_id absolutize_url) ∈
        request_list w true absolutize_url "") := by
  refine ⟨?_, ?_, ?_⟩
  · simp [Server.detail_json, hir]
  · intro sid hfind
    unfold request_read
    rw [hfind]
    show (match w.heapGet r with
          | none => ((404 : Int), (none : Option ReadResponse))
          | some s => (200, some ⟨s.detail_json w.tenant_id absolutize_url⟩)) = _
    rw [hs]
  · intro hrm
    unfold request_list
    have h1 : s ∈ w.servers.filterMap w.heapGet := List.mem_filterMap.mpr ⟨r, hrm, hs⟩
    have h2 : s ∈ (w.servers.filterMap w.heapGet).filter
        (fun s' => strContains s'.server_name "") :=
      List.mem_filter.mpr ⟨h1, strContains_empty _⟩
    have h3 := List.mem_map_of_mem
      (fun s' : Server =>
        if true then ListedServer.detail (s'.detail_json w.tenant_id absolutize_url)
        else ListedServer.brief (s'.brief_json w.tenant_id absolutize_url)) h2
    simpa using h3

/-- C10 witness: in the world with one default-created server, the image
id is the request's `imageRef` "img" while the image bookmark href is built
from the flavor reference "flav". -/
theorem claim10_witness :
    (sActive.detail_json wActive.tenant_id id).image =
      some ⟨"img", [⟨id (wActive.tenant_id ++ "/images/" ++ sActive.flavor_ref),
                    "bookmark"⟩]⟩ ∧
    request_read wActive (genServerId 7) id =
      (200, some ⟨sActive.detail_json wActive.tenant_id id⟩) := by
  have h := claim10_image_bookmark_from_flavor wActive 0 sActive id "img"
    (by decide) (by decide) (by decide)
  exact ⟨h.1, h.2.1 (genServerId 7) (by decide)⟩

/-- C6 (amended): a present `OS-DCF:diskConfig` that is exactly AUTO or
MANUAL is honoured; an absent or empty value defaults to AUTO (the source's
`or "AUTO"` also treats the falsy empty string as absent, which the original
claim does not allow); any other present, non-empty value raises a
`ValueError` that propagates out of the creation request as a request-time
failure. -/
theorem claim6_disk_config (w : World) (json : CreationJson) (e : Entropy) :
    (∀ v, json.server.diskConfig = some v → (v = "AUTO" ∨ v = "MANUAL") →
      ∃ s, Server.from_creation_request_json w json e = .ok (w.appendServer s, w.nextRef) ∧
        s.disk_config = v) ∧
    ((json.server.diskConfig = none ∨ json.server.diskConfig = some "") →
      ∃ s, Server.from_creation_request_json w json e = .ok (w.appendServer s, w.nextRef) ∧
        s.disk_config = "AUTO") ∧
    (∀ v, json.server.diskConfig = some v → v ≠ "" → v ≠ "AUTO" → v ≠ "MANUAL" →
      Server.from_creation_request_json w json e =
        .error "OS-DCF:diskConfig not either AUTO or MANUAL") ∧
    (∀ v reg absolutize_url, json.server.diskConfig = some v → v ≠ "" → v ≠ "AUTO" →
      v ≠ "MANUAL" →
      metadata_to_creation_behavior ((json.server.metadata).getD []) = .ok none →
      behavior_for_attributes reg (creationBundle w json) =
        .ok (default_create_behavior none) →
      request_creation reg w json absolutize_url e =
        .error "OS-DCF:diskConfig not either AUTO or MANUAL") := by
  have herr : ∀ v, json.server.diskConfig = some v → v ≠ "" → v ≠ "AUTO" → v ≠ "MANUAL" →
      Server.from_creation_request_json w json e =
        .error "OS-DCF:diskConfig not either AUTO or MANUAL" := by
    intro v hv hv0 hvA hvM
    have hpd : pyOrDefault json.server.diskConfig "AUTO" = v := by
      rw [hv]
      simp [pyOrDefault, hv0]
    simp only [Server.from_creation_request_json]
    rw [if_pos (by rw [hpd]; rintro (h | h) <;> [exact hvA h; exact hvM h])]
  refine ⟨?_, ?_, herr, ?_⟩
  · intro v hv hval
    have hv0 : v ≠ "" := by rintro rfl; rcases hval with h | h <;> exact absurd h (by decide)
    have hpd : pyOrDefault json.server.diskConfig "AUTO" = v := by
      rw [hv]; simp [pyOrDefault, hv0]
    obtain ⟨s, h1, _, _, _, _, hdk, _, _, _, _⟩ :=
      default_create_ok w json e (by rw [hpd]; exact hval)
    exact ⟨s, h1, by rw [hdk, hpd]⟩
  · intro hv
    have hpd : pyOrDefault json.server.diskConfig "AUTO" = "AUTO" := by
      rcases hv with h | h <;> rw [h] <;> simp [pyOrDefault]
    obtain ⟨s, h1, _, _, _, _, hdk, _, _, _, _⟩ :=
      default_create_ok w json e (by rw [hpd]; exact Or.inl rfl)
    exact ⟨s, h1, by rw [hdk, hpd]⟩
  · intro v reg absolutize_url hv hv0 hvA hvM hres hdisp
    rw [request_creation_dispatch_ok hres hdisp]
    unfold default_create_behavior
    rw [herr v hv hv0 hvA hvM]

/-- C6 counterexample: with `OS-DCF:diskConfig` present and equal to the
empty string — a present value that is neither AUTO nor MANUAL — creation
does not fail as the claim requires; it succeeds and silently defaults the
disk config to AUTO. -/
theorem claim6_counterexample :
    jsonEmptyDisk.server.diskConfig = some "" ∧ "" ≠ "AUTO" ∧ "" ≠ "MANUAL" ∧
    (Server.from_creation_request_json w0 jsonEmptyDisk e0).isOk = true ∧
    diskConfigOfResult (Server.from_creation_request_json w0 jsonEmptyDisk e0) =
      some "AUTO" := by
  exact ⟨rfl, by decide, by decide, by decide, by decide⟩

/-- C4: a creation request whose metadata carries a parseable
`create_server_failure` descriptor leaves the collection state entirely
unchanged (no server is added), answers with the descriptor's code, and
returns a payload embedding that code and message; an absent code defaults
to 500 and an absent message to "Server creation failed.". -/
theorem claim4_fail_behavior (reg : BehaviorRegistry) (w : World) (json : CreationJson)
    (absolutize_url : String → String) (e : Entropy) (md : Md) (v : String) (o : JObj)
    (n : Int) (msg : JLeaf)
    (hmd : json.server.metadata = some md)
    (hv : Md.get? md "create_server_failure" = some v)
    (ho : loads v = some o)
    (hcode : jobjGet o "code" (.jint 500) = .jint n)
    (hmsg : jobjGet o "message" (.jstr "Server creation failed.") = msg) :
    request_creation reg w json absolutize_url e =
      .ok ⟨w, n, .failed (invalid_resource msg n)⟩ ∧
    jobjLookup (invalid_resource msg n) "code" = some (.jint n) ∧
    jobjLookup (invalid_resource msg n) "message" = some msg ∧
    (jobjLookup o "code" = none → n = 500) ∧
    (jobjLookup o "message" = none → msg = .jstr "Server creation failed.") := by
  refine ⟨?_, ?_, ?_, ?_, ?_⟩
  · rw [request_creation_resolver_some (by rw [hmd]; exact resolver_fail hv ho)]
    unfold create_fail_behavior
    rw [hcode, hmsg]
  · simp [invalid_resource, jobjLookup]
  · simp [invalid_resource, jobjLookup]
  · intro h
    rw [jobjGet_eq, h] at hcode
    cases hcode
    rfl
  · intro h
    rw [jobjGet_eq, h] at hmsg
    exact hmsg.symm

/-- C4 witness: failing creation with code 503 and message "boom" answers
503 with the error payload and leaves the empty collection empty. -/
theorem claim4_witness :
    request_creation reg0 w0 (reqWith (some mdFail)) id e0 =
      .ok ⟨w0, 503, .failed (invalid_resource (.jstr "boom") 503)⟩ ∧
    jobjLookup (invalid_resource (.jstr "boom") 503) "code" = some (.jint 503) ∧
    jobjLookup (invalid_resource (.jstr "boom") 503) "message" = some (.jstr "boom") := by
  have h := claim4_fail_behavior reg0 w0 (reqWith (some mdFail)) id e0 mdFail
    "\x7b\"code\": 503, \"message\": \"boom\"\x7d" oFail 503 (.jstr "boom")
    rfl (by decide) (by decide) (by decide) (by decide)
  exact ⟨h.1, h.2.1, h.2.2.1⟩

/-- C1: the metadata override resolver checks exactly the three magic keys
in priority order `create_server_failure`, then `server_building`, then
`server_error`, routing them to the fail, build and error creators
respectively; the resolver is consulted before registry dispatch (its
answer bypasses any registry), and only when none of the keys is present
does `request_creation` fall through to the behavior registry. -/
theorem claim1_metadata_override (reg : BehaviorRegistry) (w : World) (json : CreationJson)
    (absolutize_url : String → String) (e : Entropy) :
    (∀ (md : Md) (v : String) (o : JObj),
      Md.get? md "create_server_failure" = some v → loads v = some o →
      metadata_to_creation_behavior md = .ok (some (create_fail_behavior o))) ∧
    (∀ (md : Md) (v : String) (q : ℚ) (b : Behavior),
      Md.get? md "create_server_failure" = none →
      Md.get? md "server_building" = some v → pyFloat v = some q →
      create_building_behavior [("duration", q)] = .ok b →
      metadata_to_creation_behavior md = .ok (some b)) ∧
    (∀ md : Md, Md.get? md "create_server_failure" = none →
      Md.get? md "server_building" = none → Md.hasKey md "server_error" = true →
      metadata_to_creation_behavior md = .ok (some create_error_status_behavior)) ∧
    (∀ md : Md, Md.get? md "create_server_failure" = none →
      Md.get? md "server_building" = none → Md.get? md "server_error" = none →
      metadata_to_creation_behavior md = .ok none) ∧
    (∀ (md : Md) (v : String) (o : JObj), json.server.metadata = some md →
      Md.get? md "create_server_failure" = some v → loads v = some o →
      request_creation reg w json absolutize_url e =
        create_fail_behavior o w json absolutize_url e) ∧
    (∀ md : Md, json.server.metadata = some md →
      Md.get? md "create_server_failure" = none →
      Md.get? md "server_building" = none → Md.get? md "server_error" = none →
      request_creation reg w json absolutize_url e =
        match behavior_for_attributes reg (creationBundle w json) with
        | .error m => .error m
        | .ok b => b w json absolutize_url e) := by
  refine ⟨?_, ?_, ?_, ?_, ?_, ?_⟩
  · intro md v o hv ho
    exact resolver_fail hv ho
  · intro md v q b h1 hv hq hb
    have hred : create_building_behavior [("duration", q)] =
        .ok (default_with_hook (buildingHook q)) := rfl
    rw [hred] at hb
    cases hb
    exact resolver_build h1 hv hq
  · intro md h1 h2 hv
    exact resolver_error h1 h2 hv
  · intro md h1 h2 h3
    exact resolver_none h1 h2 h3
  · intro md v o hmd hv ho
    exact request_creation_resolver_some (by rw [hmd]; exact resolver_fail hv ho)
  · intro md hmd h1 h2 h3
    rw [request_creation_fallthrough (by rw [hmd]; exact resolver_none h1 h2 h3)]
    rfl

/-- C1 witness: a `create_server_failure` key routes to the fail creator
(bypassing the registry), and metadata with none of the magic keys falls
through to the registry. -/
theorem claim1_witness :
    metadata_to_creation_behavior mdFail = .ok (some (create_fail_behavior oFail)) ∧
    metadata_to_creation_behavior [("x", "y")] = .ok none ∧
    request_creation reg0 w0 (reqWith (some mdFail)) id e0 =
      create_fail_behavior oFail w0 (reqWith (some mdFail)) id e0 := by
  have h := claim1_metadata_override reg0 w0 (reqWith (some mdFail)) id e0
  exact ⟨h.1 mdFail "\x7b\"code\": 503, \"message\": \"boom\"\x7d" oFail
           (by decide) (by decide),
         h.2.2.2.1 [("x", "y")] (by decide) (by decide) (by decide),
         h.2.2.2.2.1 mdFail "\x7b\"code\": 503, \"message\": \"boom\"\x7d" oFail
           rfl (by decide) (by decide)⟩

/-- C8: the metadata criterion's predicate raises (models Python's
`AttributeError` on `None.get`) when the request carries no metadata at
all, instead of returning a boolean as the claim requires; dispatching a
creation request with no metadata against a registry holding a metadata
criterion therefore raises out of `request_creation`. -/
theorem claim8_missing_metadata_raises :
    (metadata_criterion rmAll [("k", ".*")]).predicate AttrVal.pynone = none ∧
    request_creation regM w0 jsonNoMd id e0 =
      .error "AttributeError: criterion evaluation raised" := by
  exact ⟨rfl, rfl⟩

/-- C6 witness: a present "MANUAL" is honoured, and a present non-empty
invalid value ("WEIRD") raises the ValueError. -/
theorem claim6_witness :
    (∃ s, Server.from_creation_request_json w0
        ⟨⟨"srv", none, "flav", some "img", some "MANUAL"⟩⟩ e0 =
          .ok (w0.appendServer s, w0.nextRef) ∧ s.disk_config = "MANUAL") ∧
    Server.from_creation_request_json w0
        ⟨⟨"srv", none, "flav", some "img", some "WEIRD"⟩⟩ e0 =
      .error "OS-DCF:diskConfig not either AUTO or MANUAL" := by
  refine ⟨(claim6_disk_config w0 _ e0).1 "MANUAL" rfl (by decide), ?_⟩
  exact (claim6_disk_config w0 _ e0).2.2.1 "WEIRD" rfl (by decide) (by decide) (by decide)

/-- C2 (amended): with no override metadata and no matching registered
behavior, creation runs the default behavior: it appends one new server to
the collection, answers 202 with its creation response, the server's status
is ACTIVE and its update time equals its creation time, both taken from the
virtual clock; its id is unique within the collection provided the injected
random id draw differs from every existing server's id (the source draws
`randrange(9999999999)` with no uniqueness check). -/
theorem claim2_default_creation (reg : BehaviorRegistry) (w : World)
    (json : CreationJson) (absolutize_url : String → String) (e : Entropy)
    (hres : metadata_to_creation_behavior ((json.server.metadata).getD []) = .ok none)
    (hdisp : behavior_for_attributes reg (creationBundle w json) =
      .ok (default_create_behavior none))
    (hdc : pyOrDefault json.server.diskConfig "AUTO" = "AUTO" ∨
           pyOrDefault json.server.diskConfig "AUTO" = "MANUAL")
    (hfresh : ∀ p ∈ w.heap, p.1 ≠ w.nextRef)
    (hsrv : ∀ r ∈ w.servers, r ≠ w.nextRef)
    (hid : ∀ p ∈ w.heap, p.2.server_id ≠ genServerId e.idNum) :
    ∃ s : Server,
      request_creation reg w json absolutize_url e =
        .ok ⟨w.appendServer s, 202,
             .created (s.creation_response_json w.tenant_id absolutize_url)⟩ ∧
      s.status = "ACTIVE" ∧
      s.creation_time = w.now ∧ s.update_time = w.now ∧
      (w.appendServer s).servers = w.servers ++ [w.nextRef] ∧
      (w.appendServer s).heapGet w.nextRef = some s ∧
      (∀ r' ∈ w.servers, ∀ s', (w.appendServer s).heapGet r' = some s' →
        s'.server_id ≠ s.server_id) := by
  obtain ⟨s, hb, hst, hct, hut, hidnum, _⟩ :=
    default_none_ok w json absolutize_url e hdc hfresh
  refine ⟨s, ?_, hst, hct, hut, rfl, heapGet_appendServer_new w s hfresh, ?_⟩
  · rw [request_creation_dispatch_ok hres hdisp, hb]
  · intro r' hr' s' hs'
    rw [heapGet_appendServer_old w s r' (hsrv r' hr')] at hs'
    rw [hidnum]
    exact hid (r', s') (heapGet_mem_heap hs')

/-- C2 counterexample: two default creations whose random id draws collide
produce two distinct servers in the same collection carrying the same id,
so the id of a default-created server is not unconditionally unique. -/
theorem claim2_counterexample :
    0 ∈ wTwice.servers ∧ 1 ∈ wTwice.servers ∧ (0 : Nat) ≠ 1 ∧
    (wTwice.heapGet 0).map Server.server_id = some (genServerId 7) ∧
    (wTwice.heapGet 1).map Server.server_id = some (genServerId 7) :=
  ⟨by decide, by decide, by decide, by decide, by decide⟩

/-- C2 witness: a default creation in the empty collection yields 202, an
ACTIVE server with equal creation and update times, appended to the
collection. -/
theorem claim2_witness :
    ∃ s : Server,
      request_creation reg0 w0 (reqWith none) id e0 =
        .ok ⟨w0.appendServer s, 202, .created (s.creation_response_json w0.tenant_id id)⟩ ∧
      s.status = "ACTIVE" ∧ s.creation_time = w0.now ∧ s.update_time = w0.now ∧
      (w0.appendServer s).servers = w0.servers ++ [w0.nextRef] := by
  obtain ⟨s, h1, h2, h3, h4, h5, _⟩ := claim2_default_creation reg0 w0 (reqWith none) id e0
    rfl rfl (by decide) (by decide) (by decide) (by decide)
  exact ⟨s, h1, h2, h3, h4, h5⟩

theorem request_delete_found {w : World} {sid : String} {r : Nat} {server : Server}
    (hfind : w.server_by_id sid = some r) (hget : w.heapGet r = some server) :
    request_delete w sid = deleteFound w r server := by
  unfold request_delete
  rw [hfind]
  show (match w.heapGet r with
        | none => Except.ok (w, 404)
        | some server => deleteFound w r server) = _
  rw [hget]

/-- C5: deleting an absent id answers 404; deleting a server whose
metadata holds a `delete_server_failure` descriptor with a positive
remaining count answers 500, decrements and persists the count, and leaves
the server in the collection; once the count is zero, deletion answers 204
and removes the server, after which it is absent from subsequent read and
list results. -/
theorem claim5_delete (w : World) (sid : String) (absolutize_url : String → String) :
    (w.server_by_id sid = none → request_delete w sid = .ok (w, 404)) ∧
    (∀ (r : Nat) (server : Server) (dv : String) (srv : JObj) (n : Int),
      w.server_by_id sid = some r → w.heapGet r = some server →
      Md.get? server.metadata "delete_server_failure" = some dv →
      loads dv = some srv → jobjLookup srv "times" = some (.jint n) → 0 < n →
      ∃ w', request_delete w sid = .ok (w', 500) ∧
        w'.servers = w.servers ∧
        w'.heapGet r = some { server with
          metadata := Md.set server.metadata "delete_server_failure"
            (dumps (jobjSet srv "times" (.jint (n - 1)))) }) ∧
    (∀ (r : Nat) (server : Server) (dv : String) (srv : JObj),
      w.server_by_id sid = some r → w.heapGet r = some server →
      Md.get? server.metadata "delete_server_failure" = some dv →
      loads dv = some srv → jobjLookup srv "times" = some (.jint 0) →
      w.servers.count r ≤ 1 →
      (∀ r' ∈ w.servers, r' ≠ r → ∀ s', w.heapGet r' = some s' → s'.server_id ≠ sid) →
      ∃ w', request_delete w sid = .ok (w', 204) ∧
        w'.servers = w.servers.erase r ∧ r ∉ w'.servers ∧
        request_read w' sid absolutize_url = (404, none) ∧
        (∀ (incl : Bool) (entry : ListedServer),
          entry ∈ request_list w' incl absolutize_url "" →
          ListedServer.idOf entry ≠ sid)) := by
  refine ⟨?_, ?_, ?_⟩
  · intro h
    unfold request_delete
    rw [h]
  · intro r server dv srv n hfind hget hdv hsrv htimes hpos
    have ht : deleteTransient w r server =
        .ok (some (w.heapSet r { server with
          metadata := Md.set server.metadata "delete_server_failure"
            (dumps (jobjSet srv "times" (.jint (n - 1)))) }, 500)) := by
      unfold deleteTransient
      rw [if_pos (hasKey_of_get? hdv), getD_of_get? hdv]
      simp only [hsrv, htimes]
      rw [if_neg (by omega : ¬ n = 0)]
    rw [request_delete_found hfind hget]
    unfold deleteFound
    rw [ht]
    refine ⟨_, rfl, rfl, ?_⟩
    rw [heapGet_heapSet, if_pos rfl, hget]
    rfl
  · intro r server dv srv hfind hget hdv hsrv htimes hcount hu
    have hsid : server.server_id = sid := by
      obtain ⟨_, s', hs', hsid'⟩ := server_by_id_found hfind
      rw [hget] at hs'
      cases hs'
      exact hsid'
    have ht : deleteTransient w r server = .ok none := by
      unfold deleteTransient
      rw [if_pos (hasKey_of_get? hdv), getD_of_get? hdv]
      simp only [hsrv, htimes, if_true]
    have herase : removeFirstBy (fun r2 => decide (w.heapGet r2 = w.heapGet r)) w.servers =
        w.servers.erase r := by
      refine removeFirstBy_eq_erase _ _ r (fun x hx => ?_)
      constructor
      · intro hpx
        have hx' : w.heapGet x = w.heapGet r := of_decide_eq_true hpx
        by_contra hxr
        rw [hget] at hx'
        exact hu x hx hxr server hx' hsid
      · rintro rfl
        simp
    have hnotmem : r ∉ w.servers.erase r := by
      have h1 : (w.servers.erase r).count r = w.servers.count r - 1 :=
        List.count_erase_self r w.servers
      have h2 : (w.servers.erase r).count r = 0 := by omega
      exact List.count_eq_zero.mp h2
    have hshow : deleteFound w r server = .ok ({ w with servers := removeFirstBy (fun r2 => decide (w.heapGet r2 = w.heapGet r)) w.servers }, 204) := by
      unfold deleteFound
      rw [ht]
    have hdel : request_delete w sid =
        .ok ({ w with servers := w.servers.erase r }, 204) := by
      rw [request_delete_found hfind hget, hshow, herase]
    have hheap : ∀ r', ({ w with servers := w.servers.erase r } : World).heapGet r' =
        w.heapGet r' := fun _ => rfl
    refine ⟨_, hdel, rfl, hnotmem, ?_, ?_⟩
    · unfold request_read
      rw [server_by_id_none ?hnone]
      case hnone =>
        intro r' hr' s' hs'
        rw [hheap r'] at hs'
        have hr'mem : r' ∈ w.servers := List.mem_of_mem_erase hr'
        rcases eq_or_ne r' r with rfl | hne
        · exact absurd hr' hnotmem
        · exact hu r' hr'mem hne s' hs'
    · intro incl entry hentry
      unfold request_list at hentry
      obtain ⟨s', hs'f, hentry_eq⟩ := List.mem_map.mp hentry
      have hs'fm := (List.mem_filter.mp hs'f).1
      obtain ⟨r', hr', hGet⟩ := List.mem_filterMap.mp hs'fm
      rw [hheap r'] at hGet
      have hr'mem : r' ∈ w.servers := List.mem_of_mem_erase hr'
      have hsid' : s'.server_id ≠ sid := by
        rcases eq_or_ne r' r with rfl | hne
        · exact absurd hr' hnotmem
        · exact hu r' hr'mem hne s' hGet
      rw [← hentry_eq]
      cases incl <;> simpa [ListedServer.idOf, Server.detail_json, Server.brief_json]
        using hsid'

/-- C5 witness: in a collection with one server carrying
`delete_server_failure {"times": 2}`, a delete answers 500, keeps the
server, and persists the decremented count. -/
theorem claim5_witness :
    ∃ w', request_delete wDel (genServerId 7) = .ok (w', 500) ∧
      w'.servers = wDel.servers ∧
      w'.heapGet 0 = some { sDel with
        metadata := Md.set sDel.metadata "delete_server_failure"
          (dumps (jobjSet [("times", JLeaf.jint 2)] "times" (.jint (2 - 1)))) } := by
  exact (claim5_delete wDel (genServerId 7) id).2.1 0 sDel "\x7b\"times\": 2\x7d"
    [("times", JLeaf.jint 2)] 2 (by decide) (by decide) (by decide) (by decide)
    (by decide) (by norm_num)

/-- C7 (amended): the scheduled BUILD-to-ACTIVE callback of a server that
was deleted before it fired is not cancelled and is not a no-op on the
entity — it unconditionally mutates the captured (removed) server object —
but because the object is no longer in the collection the mutation touches
no server state reachable from the collection: the collection's membership,
every member's state, and the read and list observables are unchanged by
firing it. -/
theorem claim7_deleted_build_callback (w : World) (d : ℚ)
    (h : ∀ c ∈ w.calls, c.ref ∉ w.servers) :
    (w.advance d).servers = w.servers ∧
    (∀ r ∈ w.servers, (w.advance d).heapGet r = w.heapGet r) ∧
    (∀ (sid : String) (absolutize_url : String → String),
      request_read (w.advance d) sid absolutize_url =
        request_read w sid absolutize_url) ∧
    (∀ (incl : Bool) (absolutize_url : String → String) (nm : String),
      request_list (w.advance d) incl absolutize_url nm =
        request_list w incl absolutize_url nm) := by
  have hgetAll : ∀ r ∈ w.servers, (w.advance d).heapGet r = w.heapGet r := by
    intro r hr
    exact advance_heapGet_of_no_call w d r (fun c hc hcr => h c hc (hcr ▸ hr))
  have hsb : ∀ sid, (w.advance d).server_by_id sid = w.server_by_id sid := by
    intro sid
    exact server_by_id_congruent w (w.advance d) (advance_servers w d) hgetAll sid
  refine ⟨advance_servers w d, hgetAll, ?_, ?_⟩
  · intro sid absolutize_url
    unfold request_read
    rw [hsb]
    rcases hfind : w.server_by_id sid with _ | r
    · rfl
    · obtain ⟨hrm, _, _, _⟩ := server_by_id_found hfind
      simp only [hgetAll r hrm, advance_tenant]
  · intro incl absolutize_url nm
    unfold request_list
    rw [advance_servers, List.filterMap_congr hgetAll]
    simp only [advance_tenant]

/-- C7 counterexample: a building server deleted before its callback fires
is still mutated by the callback — its status flips from BUILD to ACTIVE
after the clock advances — so the callback is not "a no-op on the removed
entity" and no existence check guards the mutation. -/
theorem claim7_counterexample :
    (wBuildDel.heapGet 0).map Server.status = some "BUILD" ∧
    (0 : Nat) ∉ wBuildDel.servers ∧
    ((wBuildDel.advance 5).heapGet 0).map Server.status = some "ACTIVE" := by
  refine ⟨by decide, by decide, ?_⟩
  rw [advance_heapGet wBuildDel 5 0 (by decide), if_pos ?hex]
  case hex =>
    have hc : wBuildDel.calls = [⟨wBuildDel.now + 5, 0, "ACTIVE"⟩] := rfl
    refine ⟨⟨wBuildDel.now + 5, 0, "ACTIVE"⟩, ?_, rfl, le_refl _⟩
    rw [hc]
    exact List.mem_singleton.mpr rfl
  decide

/-- C7 witness: firing the orphaned callback changes neither the
collection membership nor the read observable. -/
theorem claim7_witness :
    (wBuildDel.advance 5).servers = wBuildDel.servers ∧
    request_read (wBuildDel.advance 5) (genServerId 7) id =
      request_read wBuildDel (genServerId 7) id := by
  have h := claim7_deleted_build_callback wBuildDel 5 (by decide)
  exact ⟨h.1, h.2.2.1 (genServerId 7) id⟩

theorem advanceAll_tracked (ds : List ℚ) : ∀ (w : World) (r : Nat) (t : ℚ),
    (∀ d ∈ ds, 0 ≤ d) →
    (w.heapGet r).map Server.status = some "BUILD" →
    w.now < t →
    (⟨t, r, "ACTIVE"⟩ : SchedCall) ∈ w.calls →
    (∀ c ∈ w.calls, c.ref = r → c = ⟨t, r, "ACTIVE"⟩) →
    ((w.advanceAll ds).heapGet r).map Server.status =
      some (if t ≤ w.now + ds.sum then "ACTIVE" else "BUILD") := by
  induction ds with
  | nil =>
      intro w r t _ hst hnow _ _
      rw [show w.advanceAll [] = w from rfl,
        if_neg (by rw [List.sum_nil, add_zero]; exact not_le.mpr hnow)]
      exact hst
  | cons d rest ih =>
      intro w r t hds hst hnow hmem hall
      show (((w.advance d).advanceAll rest).heapGet r).map Server.status = _
      have hA : ∀ c ∈ w.calls, c.ref = r → c.newStatus = "ACTIVE" := by
        intro c hc hcr
        rw [hall c hc hcr]
      by_cases hfire : t ≤ w.now + d
      · have hga : (w.advance d).heapGet r =
            (w.heapGet r).map (fun s => { s with status := "ACTIVE" }) := by
          rw [advance_heapGet w d r hA, if_pos ⟨⟨t, r, "ACTIVE"⟩, hmem, rfl, hfire⟩]
        have hnone : ∀ c ∈ (w.advance d).calls, c.ref ≠ r := by
          intro c hc hcr
          rw [advance_calls] at hc
          have h1 := List.mem_filter.mp hc
          have h3 : decide (w.now + d < c.time) = true := h1.2
          rw [hall c h1.1 hcr] at h3
          simp only [decide_eq_true_eq] at h3
          exact absurd hfire (not_le.mpr h3)
        rw [advanceAll_of_no_call _ rest r hnone, hga]
        have hsum : t ≤ w.now + (d :: rest).sum := by
          have h0 : (0 : ℚ) ≤ rest.sum :=
            List.sum_nonneg (fun x hx => hds x (by simp [hx]))
          rw [List.sum_cons]
          linarith
        rw [if_pos hsum]
        rcases hg : w.heapGet r with _ | s
        · rw [hg] at hst; cases hst
        · rfl
      · have hga : (w.advance d).heapGet r = w.heapGet r := by
          rw [advance_heapGet w d r hA, if_neg ?hnex]
          case hnex =>
            rintro ⟨c, hc, hcr, hct⟩
            rw [hall c hc hcr] at hct
            exact hfire hct
        have hmem' : (⟨t, r, "ACTIVE"⟩ : SchedCall) ∈ (w.advance d).calls := by
          rw [advance_calls]
          exact List.mem_filter.mpr ⟨hmem, by simpa using lt_of_not_le hfire⟩
        have hall' : ∀ c ∈ (w.advance d).calls, c.ref = r → c = ⟨t, r, "ACTIVE"⟩ := by
          intro c hc hcr
          rw [advance_calls] at hc
          exact hall c (List.mem_filter.mp hc).1 hcr
        have hnow' : (w.advance d).now < t := by
          rw [advance_now]
          exact lt_of_not_le hfire
        have hrec := ih (w.advance d) r t (fun x hx => hds x (by simp [hx]))
          (by rw [hga]; exact hst) hnow' hmem' hall'
        rw [hrec, advance_now]
        have hsum : w.now + d + rest.sum = w.now + (d :: rest).sum := by
          rw [List.sum_cons]
          ring
        rw [hsum]

/-- C3: a creation request whose metadata maps `server_building` to a
numeric string parsing to a positive duration N creates a server whose
status is BUILD immediately after the creation call returns, and across any
sequence of clock advancements the status is ACTIVE exactly when the total
advancement has reached N simulated seconds, and BUILD before that. -/
theorem claim3_building (reg : BehaviorRegistry) (w : World) (json : CreationJson)
    (absolutize_url : String → String) (e : Entropy) (md : Md) (v : String) (N : ℚ)
    (hmd : json.server.metadata = some md)
    (h1 : Md.get? md "create_server_failure" = none)
    (hv : Md.get? md "server_building" = some v)
    (hq : pyFloat v = some N)
    (hN : 0 < N)
    (hdc : pyOrDefault json.server.diskConfig "AUTO" = "AUTO" ∨
           pyOrDefault json.server.diskConfig "AUTO" = "MANUAL")
    (hfresh : ∀ p ∈ w.heap, p.1 ≠ w.nextRef)
    (hcall : ∀ c ∈ w.calls, c.ref ≠ w.nextRef) :
    ∃ out : CreateOutcome,
      request_creation reg w json absolutize_url e = .ok out ∧
      out.code = 202 ∧
      (out.world.heapGet w.nextRef).map Server.status = some "BUILD" ∧
      ∀ ds : List ℚ, (∀ d ∈ ds, 0 ≤ d) →
        ((out.world.advanceAll ds).heapGet w.nextRef).map Server.status =
          some (if N ≤ ds.sum then "ACTIVE" else "BUILD") := by
  have hres : metadata_to_creation_behavior ((json.server.metadata).getD []) =
      .ok (some (default_with_hook (buildingHook N))) := by
    rw [hmd]
    exact resolver_build h1 hv hq
  obtain ⟨s, hb, hst, _, _, _, _⟩ :=
    building_behavior_ok w json absolutize_url e N hdc hfresh
  have hW2get :
      ((((w.appendServer s).setStatus w.nextRef "BUILD").callLater N w.nextRef
        "ACTIVE").heapGet w.nextRef) = some { s with status := "BUILD" } := by
    have h0 : ((((w.appendServer s).setStatus w.nextRef "BUILD").callLater N w.nextRef
        "ACTIVE").heapGet w.nextRef) =
        (((w.appendServer s).setStatus w.nextRef "BUILD").heapGet w.nextRef) := rfl
    rw [h0, heapGet_setStatus, if_pos rfl, heapGet_appendServer_new w s hfresh]
    rfl
  refine ⟨_, by rw [request_creation_resolver_some hres, hb], rfl, ?_, ?_⟩
  · show ((((w.appendServer s).setStatus w.nextRef "BUILD").callLater N w.nextRef
        "ACTIVE").heapGet w.nextRef).map Server.status = _
    rw [hW2get]
    rfl
  · intro ds hds
    show (((((w.appendServer s).setStatus w.nextRef "BUILD").callLater N w.nextRef
        "ACTIVE").advanceAll ds).heapGet w.nextRef).map Server.status = _
    have hcalls : (((w.appendServer s).setStatus w.nextRef "BUILD").callLater N w.nextRef
        "ACTIVE").calls = w.calls ++ [⟨w.now + N, w.nextRef, "ACTIVE"⟩] := rfl
    have htr := advanceAll_tracked ds
      (((w.appendServer s).setStatus w.nextRef "BUILD").callLater N w.nextRef "ACTIVE")
      w.nextRef (w.now + N) hds
      (by rw [hW2get]; rfl)
      (by show w.now < w.now + N; linarith)
      (by rw [hcalls]; exact List.mem_append_right _ (List.mem_singleton.mpr rfl))
      (by
        intro c hc hcr
        rw [hcalls] at hc
        rcases List.mem_append.mp hc with h | h
        · exact absurd hcr (hcall c h)
        · exact List.mem_singleton.mp h)
    rw [htr]
    show some (if w.now + N ≤ w.now + ds.sum then "ACTIVE" else "BUILD") = _
    simp only [add_le_add_iff_left]

/-- C3 witness: a `server_building: "5"` creation yields a BUILD server
that is still BUILD after advancing 3 seconds and ACTIVE after advancing 3
then 2 more. -/
theorem claim3_witness :
    ∃ out : CreateOutcome,
      request_creation reg0 w0 (reqWith (some [("server_building", "5")])) id e0 =
        .ok out ∧
      (out.world.heapGet 0).map Server.status = some "BUILD" ∧
      ((out.world.advanceAll [3]).heapGet 0).map Server.status = some "BUILD" ∧
      ((out.world.advanceAll [3, 2]).heapGet 0).map Server.status = some "ACTIVE" := by
  obtain ⟨out, h1, _, h3, h4⟩ := claim3_building reg0 w0
    (reqWith (some [("server_building", "5")])) id e0 [("server_building", "5")] "5" 5
    rfl (by decide) (by decide) (by decide) (by norm_num) (by decide) (by decide)
    (by decide)
  refine ⟨out, h1, h3, ?_, ?_⟩
  · have hb := h4 [3] (by intro d hd; simp at hd; subst hd; norm_num)
    rw [if_neg (by norm_num : ¬ (5 : ℚ) ≤ List.sum [3])] at hb
    exact hb
  · have ha := h4 [3, 2] (by intro d hd; simp at hd; rcases hd with rfl | rfl <;> norm_num)
    rw [if_pos (by norm_num : (5 : ℚ) ≤ List.sum [3, 2])] at ha
    exact ha

theorem from_creation_ok_shape {w : World} {json : CreationJson} {e : Entropy}
    {p : World × Nat} (h : Server.from_creation_request_json w json e = .ok p) :
    ∃ s : Server, s.status = "ACTIVE" ∧ p = (w.appendServer s, w.nextRef) := by
  simp only [Server.from_creation_request_json] at h
  split at h
  · simp at h
  · cases h
    exact ⟨_, rfl, rfl⟩

theorem request_creation_resolver_error {reg : BehaviorRegistry} {w : World}
    {json : CreationJson} {absolutize_url : String → String} {e : Entropy} {msg : String}
    (h : metadata_to_creation_behavior ((json.server.metadata).getD []) = .error msg) :
    request_creation reg w json absolutize_url e = .error msg := by
  unfold request_creation
  rw [h]

theorem resolver_shape {md : Md} {b : Behavior}
    (h : metadata_to_creation_behavior md = .ok (some b)) :
    (∃ o, b = create_fail_behavior o) ∨
    (∃ q, b = default_with_hook (buildingHook q)) ∨
    b = create_error_status_behavior := by
  rcases h1 : Md.get? md "create_server_failure" with _ | v1
  · rcases h2 : Md.get? md "server_building" with _ | v2
    · rcases h3 : Md.get? md "server_error" with _ | v3
      · rw [resolver_none h1 h2 h3] at h
        simp at h
      · rw [resolver_error h1 h2 (by simp [Md.hasKey, h3])] at h
        cases h
        exact Or.inr (Or.inr rfl)
    · rcases hq : pyFloat v2 with _ | q
      · have herr : metadata_to_creation_behavior md =
            .error "ValueError: could not convert string to float" := by
          unfold metadata_to_creation_behavior
          rw [hasKey_of_get?_none h1, hasKey_of_get? h2, getD_of_get? h2, hq]
          rfl
        rw [herr] at h
        simp at h
      · rw [resolver_build h1 h2 hq] at h
        cases h
        exact Or.inr (Or.inl ⟨q, rfl⟩)
  · rcases ho : loads v1 with _ | o
    · have herr : metadata_to_creation_behavior md =
          .error "ValueError: invalid JSON in create_server_failure" := by
        unfold metadata_to_creation_behavior
        rw [hasKey_of_get? h1, getD_of_get? h1, ho]
        rfl
      rw [herr] at h
      simp at h
    · rw [resolver_fail h1 ho] at h
      cases h
      exact Or.inl ⟨o, rfl⟩

theorem behaviorSearch_shape {attrs : AttributeBundle} :
    ∀ (l : List RegisteredBehavior) (b : Behavior),
    behaviorSearch attrs l = .ok (some b) → ∃ entry ∈ l, entry.behavior = b := by
  intro l
  induction l with
  | nil =>
      intro b h
      simp [behaviorSearch] at h
  | cons entry rest ih =>
      intro b h
      unfold behaviorSearch at h
      split at h
      · simp at h
      · cases h
        exact ⟨entry, by simp, rfl⟩
      · obtain ⟨e', he', hb⟩ := ih b h
        exact ⟨e', by simp [he'], hb⟩

theorem dispatch_shape {reg : BehaviorRegistry} {attrs : AttributeBundle} {b : Behavior}
    (hreg : ModuleRegistry reg) (h : behavior_for_attributes reg attrs = .ok b) :
    ModuleBehavior b := by
  unfold behavior_for_attributes at h
  rcases hs : behaviorSearch attrs reg.registered_behaviors with msg | ob
  · rw [hs] at h
    simp at h
  · rw [hs] at h
    rcases ob with _ | b'
    · have h' : Except.ok (ε := String) (default_create_behavior none) = .ok b := h
      cases h'
      exact Or.inl rfl
    · have h' : Except.ok (ε := String) b' = .ok b := h
      cases h'
      obtain ⟨entry, hmem, hbeh⟩ := behaviorSearch_shape reg.registered_behaviors b hs
      rw [← hbeh]
      exact hreg entry hmem

theorem request_creation_behavior {reg : BehaviorRegistry} {w : World}
    {json : CreationJson} {absolutize_url : String → String} {e : Entropy}
    {out : CreateOutcome}
    (hreg : ModuleRegistry reg)
    (h : request_creation reg w json absolutize_url e = .ok out) :
    ∃ b, ModuleBehavior b ∧ b w json absolutize_url e = .ok out := by
  rcases hres : metadata_to_creation_behavior ((json.server.metadata).getD []) with msg | ob
  · rw [request_creation_resolver_error hres] at h
    simp at h
  · rcases ob with _ | b
    · rw [request_creation_fallthrough hres] at h
      rcases hd : behavior_for_attributes reg
          ⟨w.tenant_id, json.server.name,
           match json.server.metadata with
           | some m => .mapping m
           | none => .pynone⟩ with msg | b
      · rw [hd] at h
        simp at h
      · rw [hd] at h
        exact ⟨b, dispatch_shape hreg hd, h⟩
    · rw [request_creation_resolver_some hres] at h
      refine ⟨b, ?_, h⟩
      rcases resolver_shape hres with ⟨o, rfl⟩ | ⟨q, rfl⟩ | rfl
      · exact Or.inr (Or.inl ⟨o, rfl⟩)
      · exact Or.inr (Or.inr (Or.inl ⟨q, rfl⟩))
      · exact Or.inr (Or.inr (Or.inr rfl))

theorem module_behavior_outcome {b : Behavior} {w : World} {json : CreationJson}
    {absolutize_url : String → String} {e : Entropy} {out : CreateOutcome}
    (hb : ModuleBehavior b) (h : b w json absolutize_url e = .ok out) :
    out.world = w ∨
    ∃ s : Server, s.status = "ACTIVE" ∧
      (out.world = w.appendServer s ∨
       out.world = (w.appendServer s).setStatus w.nextRef "ERROR" ∨
       ∃ q : ℚ, out.world =
         ((w.appendServer s).setStatus w.nextRef "BUILD").callLater q w.nextRef
           "ACTIVE") := by
  rcases hb with rfl | ⟨o, rfl⟩ | ⟨q, rfl⟩ | rfl
  · unfold default_create_behavior at h
    rcases hfc : Server.from_creation_request_json w json e with msg | p
    · rw [hfc] at h
      simp at h
    · rw [hfc] at h
      obtain ⟨s, hst, rfl⟩ := from_creation_ok_shape hfc
      have h' : (match (w.appendServer s).heapGet w.nextRef with
          | none => (Except.error "unreachable: created server vanished" :
              Except String CreateOutcome)
          | some s' => Except.ok ⟨w.appendServer s, 202,
              .created (s'.creation_response_json (w.appendServer s).tenant_id
                absolutize_url)⟩) = .ok out := h
      rcases hg : (w.appendServer s).heapGet w.nextRef with _ | s'
      · rw [hg] at h'
        simp at h'
      · rw [hg] at h'
        cases h'
        exact Or.inr ⟨s, hst, Or.inl rfl⟩
  · have h' : (match jobjGet o "code" (JLeaf.jint 500) with
        | JLeaf.jint code => (Except.ok ⟨w, code,
            .failed (invalid_resource
              (jobjGet o "message" (JLeaf.jstr "Server creation failed.")) code)⟩ :
            Except String CreateOutcome)
        | JLeaf.jstr _ => .error "TypeError: HTTP response code must be int") =
        .ok out := h
    rcases hc : jobjGet o "code" (JLeaf.jint 500) with n | sS
    · rw [hc] at h'
      cases h'
      exact Or.inl rfl
    · rw [hc] at h'
      simp at h'
  · unfold default_with_hook default_create_behavior at h
    rcases hfc : Server.from_creation_request_json w json e with msg | p
    · rw [hfc] at h
      simp at h
    · rw [hfc] at h
      obtain ⟨s, hst, rfl⟩ := from_creation_ok_shape hfc
      have h' : (match (buildingHook q (w.appendServer s) w.nextRef).heapGet
            w.nextRef with
          | none => (Except.error "unreachable: created server vanished" :
              Except String CreateOutcome)
          | some s' => Except.ok ⟨buildingHook q (w.appendServer s) w.nextRef, 202,
              .created (s'.creation_response_json
                (buildingHook q (w.appendServer s) w.nextRef).tenant_id
                absolutize_url)⟩) = .ok out := h
      rcases hg : (buildingHook q (w.appendServer s) w.nextRef).heapGet w.nextRef
          with _ | s'
      · rw [hg] at h'
        simp at h'
      · rw [hg] at h'
        cases h'
        exact Or.inr ⟨s, hst, Or.inr (Or.inr ⟨q, rfl⟩)⟩
  · unfold create_error_status_behavior default_with_hook default_create_behavior at h
    rcases hfc : Server.from_creation_request_json w json e with msg | p
    · rw [hfc] at h
      simp at h
    · rw [hfc] at h
      obtain ⟨s, hst, rfl⟩ := from_creation_ok_shape hfc
      have h' : (match ((w.appendServer s).setStatus w.nextRef "ERROR").heapGet
            w.nextRef with
          | none => (Except.error "unreachable: created server vanished" :
              Except String CreateOutcome)
          | some s' => Except.ok ⟨(w.appendServer s).setStatus w.nextRef "ERROR", 202,
              .created (s'.creation_response_json
                ((w.appendServer s).setStatus w.nextRef "ERROR").tenant_id
                absolutize_url)⟩) = .ok out := h
      rcases hg : ((w.appendServer s).setStatus w.nextRef "ERROR").heapGet w.nextRef
          with _ | s'
      · rw [hg] at h'
        simp at h'
      · rw [hg] at h'
        cases h'
        exact Or.inr ⟨s, hst, Or.inr (Or.inl rfl)⟩

theorem deleteTransient_shape {w : World} {r : Nat} {server : Server}
    {res : World × Int} (h : deleteTransient w r server = .ok (some res)) :
    ∃ md' : Md, res = (w.heapSet r { server with metadata := md' }, 500) := by
  unfold deleteTransient at h
  split at h
  · split at h
    · simp at h
    · split at h
      · simp at h
      · split at h
        · simp at h
        · simp at h
      · split at h
        · simp at h
        · cases h
          exact ⟨_, rfl⟩
  · simp at h

theorem request_delete_shape {w : World} {sid : String} {w' : World} {code : Int}
    (h : request_delete w sid = .ok (w', code)) :
    w' = w ∨
    (∃ (r : Nat) (server : Server) (md' : Md), w.heapGet r = some server ∧
      w' = w.heapSet r { server with metadata := md' }) ∨
    (∃ l : List Nat, w' = { w with servers := l }) := by
  unfold request_delete at h
  rcases hf : w.server_by_id sid with _ | r
  · rw [hf] at h
    cases h
    exact Or.inl rfl
  · rw [hf] at h
    have h2 : (match w.heapGet r with
        | none => (Except.ok (w, 404) : Except String (World × Int))
        | some server => deleteFound w r server) = .ok (w', code) := h
    rcases hg : w.heapGet r with _ | server
    · rw [hg] at h2
      cases h2
      exact Or.inl rfl
    · rw [hg] at h2
      have h3 : (match deleteTransient w r server with
          | Except.error msg => (Except.error msg : Except String (World × Int))
          | Except.ok (some res) => Except.ok res
          | Except.ok none => Except.ok ({ w with servers := removeFirstBy (fun r2 => decide (w.heapGet r2 = w.heapGet r)) w.servers }, 204)) = .ok (w', code) := h2
      rcases ht : deleteTransient w r server with msg | ores
      · rw [ht] at h3
        simp at h3
      · rw [ht] at h3
        rcases ores with _ | res
        · cases h3
          exact Or.inr (Or.inr ⟨_, rfl⟩)
        · have h5 : res = (w', code) := by
            have h4 : Except.ok (ε := String) res = .ok (w', code) := h3
            cases h4
            rfl
          obtain ⟨md', hres⟩ := deleteTransient_shape ht
          rw [h5] at hres
          have hw' : w' = w.heapSet r { server with metadata := md' } :=
            congrArg Prod.fst hres
          exact Or.inr (Or.inl ⟨r, server, md', hg, hw'⟩)

theorem good_initialWorld (t rn : String) : GoodWorld (initialWorld t rn) :=
  ⟨by simp [initialWorld], by simp [initialWorld], by simp [initialWorld],
   by simp [initialWorld]⟩

theorem good_calls_ne_nextRef {w : World} (hg : GoodWorld w) :
    ∀ c ∈ w.calls, c.ref ≠ w.nextRef := by
  intro c hc hEq
  obtain ⟨_, h2⟩ := hg.2.1 c hc
  rcases hgc : w.heapGet c.ref with _ | sc
  · rw [hgc] at h2
    cases h2
  · exact lt_irrefl _ (hEq ▸ hg.1 _ (heapGet_mem_heap hgc))

theorem good_appendServer {w : World} {s : Server} (hg : GoodWorld w)
    (hs : s.status = "ACTIVE" ∨ s.status = "BUILD" ∨ s.status = "ERROR") :
    GoodWorld (w.appendServer s) := by
  obtain ⟨hk, hc, hp, hst⟩ := hg
  refine ⟨?_, ?_, hp, ?_⟩
  · intro p hp'
    rcases List.mem_append.mp hp' with hmem | hmem
    · exact Nat.lt_succ_of_lt (hk p hmem)
    · rw [List.mem_singleton.mp hmem]
      exact Nat.lt_succ_self _
  · intro c hc'
    obtain ⟨h1, h2⟩ := hc c hc'
    refine ⟨h1, ?_⟩
    rcases hgc : w.heapGet c.ref with _ | sc
    · rw [hgc] at h2
      cases h2
    · have hlt : c.ref < w.nextRef := hk _ (heapGet_mem_heap hgc)
      have hne : c.ref ≠ w.nextRef := fun hEq => lt_irrefl _ (hEq ▸ hlt)
      rw [heapGet_appendServer_old w s _ hne]
      exact h2
  · intro p hp'
    rcases List.mem_append.mp hp' with hmem | hmem
    · exact hst p hmem
    · rw [List.mem_singleton.mp hmem]
      exact hs

theorem good_setStatus {w0 : World} (hg0 : GoodWorld w0) (r0 : Nat) (st : String)
    (hstok : st = "ACTIVE" ∨ st = "BUILD" ∨ st = "ERROR")
    (hnocall : ∀ c ∈ w0.calls, c.ref ≠ r0) :
    GoodWorld (w0.setStatus r0 st) := by
  obtain ⟨hk, hc, hp, hst⟩ := hg0
  refine ⟨?_, ?_, hp, ?_⟩
  · intro p hp'
    obtain ⟨p0, hp0, heq⟩ := List.mem_map.mp hp'
    have h1 : p.1 = p0.1 := by
      rw [← heq]
      by_cases h0 : p0.1 = r0 <;> simp [h0]
    rw [h1]
    exact hk p0 hp0
  · intro c hc'
    obtain ⟨h1, h2⟩ := hc c hc'
    refine ⟨h1, ?_⟩
    rw [heapGet_setStatus, if_neg (hnocall c hc')]
    exact h2
  · intro p hp'
    obtain ⟨p0, hp0, heq⟩ := List.mem_map.mp hp'
    by_cases h0 : p0.1 = r0
    · rw [← heq, if_pos h0]
      exact hstok
    · rw [← heq, if_neg h0]
      exact hst p0 hp0

theorem good_createError {w : World} {s : Server} (hg : GoodWorld w)
    (hs : s.status = "ACTIVE") :
    GoodWorld ((w.appendServer s).setStatus w.nextRef "ERROR") :=
  good_setStatus (good_appendServer hg (Or.inl hs)) w.nextRef "ERROR"
    (Or.inr (Or.inr rfl)) (fun c hc => good_calls_ne_nextRef hg c hc)

theorem good_createBuild {w : World} {s : Server} (hg : GoodWorld w)
    (hs : s.status = "ACTIVE") (q : ℚ) :
    GoodWorld (((w.appendServer s).setStatus w.nextRef "BUILD").callLater q
      w.nextRef "ACTIVE") := by
  have hW2 : GoodWorld ((w.appendServer s).setStatus w.nextRef "BUILD") :=
    good_setStatus (good_appendServer hg (Or.inl hs)) w.nextRef "BUILD"
      (Or.inr (Or.inl rfl)) (fun c hc => good_calls_ne_nextRef hg c hc)
  obtain ⟨hk, hc, hp, hst⟩ := hW2
  refine ⟨hk, ?_, ?_, hst⟩
  · intro c hc'
    rcases List.mem_append.mp hc' with hmem | hmem
    · exact hc c hmem
    · rw [List.mem_singleton.mp hmem]
      refine ⟨rfl, ?_⟩
      have hfresh : ∀ p ∈ w.heap, p.1 ≠ w.nextRef :=
        fun p hp' => Nat.ne_of_lt (hg.1 p hp')
      show (((w.appendServer s).setStatus w.nextRef "BUILD").heapGet
        w.nextRef).map Server.status = some "BUILD"
      rw [heapGet_setStatus, if_pos rfl, heapGet_appendServer_new w s hfresh]
      rfl
  · show List.Pairwise (fun a b => a.ref ≠ b.ref)
      (((w.appendServer s).setStatus w.nextRef "BUILD").calls ++
        [⟨((w.appendServer s).setStatus w.nextRef "BUILD").now + q, w.nextRef, "ACTIVE"⟩])
    rw [List.pairwise_append]
    refine ⟨hp, List.pairwise_singleton _ _, ?_⟩
    intro a ha b hb
    rw [List.mem_singleton.mp hb]
    exact good_calls_ne_nextRef hg a ha

theorem good_heapSetMeta {w : World} {r : Nat} {server : Server} {md' : Md}
    (hg : GoodWorld w) (hgc : w.heapGet r = some server) :
    GoodWorld (w.heapSet r { server with metadata := md' }) := by
  obtain ⟨hk, hc, hp, hst⟩ := hg
  refine ⟨?_, ?_, hp, ?_⟩
  · intro p hp'
    obtain ⟨p0, hp0, heq⟩ := List.mem_map.mp hp'
    have h1 : p.1 = p0.1 := by
      rw [← heq]
      by_cases h0 : p0.1 = r <;> simp [h0]
    rw [h1]
    exact hk p0 hp0
  · intro c hc'
    obtain ⟨h1, h2⟩ := hc c hc'
    refine ⟨h1, ?_⟩
    rw [heapGet_heapSet]
    by_cases hcr : c.ref = r
    · rw [hcr] at h2
      rw [hgc] at h2
      simp at h2
      rw [if_pos hcr, hcr, hgc]
      simpa using h2
    · rw [if_neg hcr]
      exact h2
  · intro p hp'
    obtain ⟨p0, hp0, heq⟩ := List.mem_map.mp hp'
    by_cases h0 : p0.1 = r
    · rw [← heq, if_pos h0]
      show server.status = "ACTIVE" ∨ server.status = "BUILD" ∨ server.status = "ERROR"
      exact hst _ (heapGet_mem_heap hgc)
    · rw [← heq, if_neg h0]
      exact hst p0 hp0

theorem good_serversOnly {w : World} (hg : GoodWorld w) (l : List Nat) :
    GoodWorld { w with servers := l } := by
  obtain ⟨hk, hc, hp, hst⟩ := hg
  exact ⟨hk, hc, hp, hst⟩

theorem heap_foldl_shape (cs : List SchedCall)
    (hA : ∀ c ∈ cs, c.newStatus = "ACTIVE") :
    ∀ (w : World) (p : Nat × Server), p ∈ (cs.foldl applyCall w).heap →
    ∃ p0 ∈ w.heap, p.1 = p0.1 ∧
      (p.2 = p0.2 ∨ p.2 = { p0.2 with status := "ACTIVE" }) := by
  induction cs with
  | nil =>
      intro w p hp
      exact ⟨p, hp, rfl, Or.inl rfl⟩
  | cons c t ih =>
      intro w p hp
      obtain ⟨p1, hp1, heq1, hv1⟩ :=
        ih (fun c' hc' => hA c' (by simp [hc'])) (applyCall w c) p hp
      obtain ⟨p0, hp0, heq0⟩ := List.mem_map.mp hp1
      have hAc : c.newStatus = "ACTIVE" := hA c (by simp)
      by_cases h0 : p0.1 = c.ref
      · rw [if_pos h0, hAc] at heq0
        refine ⟨p0, hp0, ?_, ?_⟩
        · rw [heq1, ← heq0]
        · rcases hv1 with h | h
          · rw [h, ← heq0]
            right
            rfl
          · rw [h, ← heq0]
            right
            rfl
      · rw [if_neg h0] at heq0
        subst heq0
        exact ⟨p0, hp0, heq1, hv1⟩

theorem good_advance {w : World} (hg : GoodWorld w) (d : ℚ) :
    GoodWorld (w.advance d) := by
  obtain ⟨hk, hc, hp, hst⟩ := hg
  have hfiredA : ∀ c ∈ sortCalls
      (w.calls.filter (fun c => decide (c.time ≤ w.now + d))), c.newStatus = "ACTIVE" :=
    fun c hcm => (hc c (List.mem_filter.mp (mem_sortCalls.mp hcm)).1).1
  refine ⟨?_, ?_, ?_, ?_⟩
  · intro p hp'
    rw [advance_def] at hp'
    obtain ⟨p0, hp0, heq, _⟩ := heap_foldl_shape _ hfiredA _ p hp'
    rw [advance_nextRef, heq]
    exact hk p0 hp0
  · intro c hc'
    have hc'' := hc'
    rw [advance_calls] at hc''
    have hcw := (List.mem_filter.mp hc'').1
    obtain ⟨h1, h2⟩ := hc c hcw
    refine ⟨h1, ?_⟩
    have hne : ∀ c' ∈ sortCalls
        (w.calls.filter (fun c => decide (c.time ≤ w.now + d))), c'.ref ≠ c.ref := by
      intro c' hcm'
      have hdue := List.mem_filter.mp (mem_sortCalls.mp hcm')
      by_cases hcc : c' = c
      · subst hcc
        have hr := (List.mem_filter.mp hc'').2
        have hd := hdue.2
        simp only [decide_eq_true_eq] at hr hd
        exact absurd hd (not_le.mpr hr)
      · exact hp.forall (fun _ _ h => Ne.symm h) hdue.1 hcw hcc
    rw [advance_def, foldl_applyCall_heapGet_of_not_target _ _ _ hne]
    exact h2
  · rw [advance_calls]
    exact hp.sublist (List.filter_sublist _)
  · intro p hp'
    rw [advance_def] at hp'
    obtain ⟨p0, hp0, _, hv⟩ := heap_foldl_shape _ hfiredA _ p hp'
    rcases hv with h | h
    · rw [h]
      exact hst p0 hp0
    · rw [h]
      left
      rfl

theorem good_step {w w' : World} (hg : GoodWorld w) (hs : Step w w') :
    GoodWorld w' := by
  cases hs with
  | create reg json absurl e out hreg hrc =>
      obtain ⟨b, hmb, happ⟩ := request_creation_behavior hreg hrc
      rcases module_behavior_outcome hmb happ with hEq | ⟨s, hst, hshape⟩
      · rw [hEq]
        exact hg
      · rcases hshape with hEq | hEq | ⟨q, hEq⟩
        · rw [hEq]
          exact good_appendServer hg (Or.inl hst)
        · rw [hEq]
          exact good_createError hg hst
        · rw [hEq]
          exact good_createBuild hg hst q
  | del sid w' code hdel =>
      rcases request_delete_shape hdel with hEq | ⟨r, server, md', hgc, hEq⟩ | ⟨l, hEq⟩
      · rw [hEq]
        exact hg
      · rw [hEq]
        exact good_heapSetMeta hg hgc
      · rw [hEq]
        exact good_serversOnly hg l
  | advance d hd =>
      exact good_advance hg d

theorem good_reachable {w : World} (h : Reachable w) : GoodWorld w := by
  induction h with
  | init t rn => exact good_initialWorld t rn
  | step _ hs ih => exact good_step ih hs

theorem status_append_cases {w : World} {s : Server}
    (hk : ∀ p ∈ w.heap, p.1 < w.nextRef) (r : Nat) :
    ((w.appendServer s).heapGet r = w.heapGet r ∧ r ≠ w.nextRef) ∨
    (w.heapGet r = none ∧ r = w.nextRef ∧ (w.appendServer s).heapGet r = some s) := by
  by_cases hr : r = w.nextRef
  · right
    have hfresh : ∀ p ∈ w.heap, p.1 ≠ w.nextRef := fun p hp => Nat.ne_of_lt (hk p hp)
    refine ⟨?_, hr, by rw [hr]; exact heapGet_appendServer_new w s hfresh⟩
    rw [heapGet_none_iff]
    intro p hp
    rw [hr]
    exact hfresh p hp
  · left
    exact ⟨heapGet_appendServer_old w s r hr, hr⟩

theorem step_status {w w' : World} (hg : GoodWorld w) (hs : Step w w') :
    (∀ (r : Nat) (s s' : Server), w.heapGet r = some s → w'.heapGet r = some s' →
      s'.status = s.status ∨ (s.status = "BUILD" ∧ s'.status = "ACTIVE")) ∧
    (∀ (r : Nat) (s' : Server), w.heapGet r = none → w'.heapGet r = some s' →
      s'.status = "ACTIVE" ∨ s'.status = "BUILD" ∨ s'.status = "ERROR") := by
  cases hs with
  | create reg json absurl e out hreg hrc =>
      obtain ⟨b, hmb, happ⟩ := request_creation_behavior hreg hrc
      rcases module_behavior_outcome hmb happ with hEq | ⟨s, hstA, hshape⟩
      · rw [hEq]
        constructor
        · intro r s0 s0' h1 h2
          rw [h1] at h2
          cases h2
          exact Or.inl rfl
        · intro r s0' h1 h2
          rw [h1] at h2
          cases h2
      · have happrop := @status_append_cases w s hg.1
        rcases hshape with hEq | hEq | ⟨q, hEq⟩
        · rw [hEq]
          constructor
          · intro r s0 s0' h1 h2
            rcases happrop r with ⟨heq, _⟩ | ⟨hnone, _, _⟩
            · rw [heq, h1] at h2
              cases h2
              exact Or.inl rfl
            · rw [hnone] at h1
              cases h1
          · intro r s0' h1 h2
            rcases happrop r with ⟨heq, _⟩ | ⟨_, _, hsome⟩
            · rw [heq, h1] at h2
              cases h2
            · rw [hsome] at h2
              cases h2
              exact Or.inl hstA
        · rw [hEq]
          constructor
          · intro r s0 s0' h1 h2
            rcases happrop r with ⟨heq, hne⟩ | ⟨hnone, _, _⟩
            · rw [heapGet_setStatus, if_neg hne, heq, h1] at h2
              cases h2
              exact Or.inl rfl
            · rw [hnone] at h1
              cases h1
          · intro r s0' h1 h2
            rcases happrop r with ⟨heq, hne⟩ | ⟨_, hr, hsome⟩
            · rw [heapGet_setStatus, if_neg hne, heq, h1] at h2
              cases h2
            · rw [heapGet_setStatus, if_pos hr, hsome] at h2
              cases h2
              exact Or.inr (Or.inr rfl)
        · rw [hEq]
          have hclg : ∀ (r' : Nat),
              ((((w.appendServer s).setStatus w.nextRef "BUILD").callLater q w.nextRef
                "ACTIVE").heapGet r') =
              (((w.appendServer s).setStatus w.nextRef "BUILD").heapGet r') :=
            fun _ => rfl
          constructor
          · intro r s0 s0' h1 h2
            rw [hclg] at h2
            rcases happrop r with ⟨heq, hne⟩ | ⟨hnone, _, _⟩
            · rw [heapGet_setStatus, if_neg hne, heq, h1] at h2
              cases h2
              exact Or.inl rfl
            · rw [hnone] at h1
              cases h1
          · intro r s0' h1 h2
            rw [hclg] at h2
            rcases happrop r with ⟨heq, hne⟩ | ⟨_, hr, hsome⟩
            · rw [heapGet_setStatus, if_neg hne, heq, h1] at h2
              cases h2
            · rw [heapGet_setStatus, if_pos hr, hsome] at h2
              cases h2
              exact Or.inr (Or.inl rfl)
  | del sid w' code hdel =>
      rcases request_delete_shape hdel with hEq | ⟨r0, server, md', hgc, hEq⟩ | ⟨l, hEq⟩
      · rw [hEq]
        constructor
        · intro r s0 s0' h1 h2
          rw [h1] at h2
          cases h2
          exact Or.inl rfl
        · intro r s0' h1 h2
          rw [h1] at h2
          cases h2
      · rw [hEq]
        constructor
        · intro r s0 s0' h1 h2
          rw [heapGet_heapSet] at h2
          by_cases hcr : r = r0
          · rw [if_pos hcr, h1] at h2
            cases h2
            rw [hcr, hgc] at h1
            cases h1
            exact Or.inl rfl
          · rw [if_neg hcr, h1] at h2
            cases h2
            exact Or.inl rfl
        · intro r s0' h1 h2
          rw [heapGet_heapSet] at h2
          by_cases hcr : r = r0
          · rw [if_pos hcr, h1] at h2
            cases h2
          · rw [if_neg hcr, h1] at h2
            cases h2
      · rw [hEq]
        constructor
        · intro r s0 s0' h1 h2
          have h2' : w.heapGet r = some s0' := h2
          rw [h1] at h2'
          cases h2'
          exact Or.inl rfl
        · intro r s0' h1 h2
          have h2' : w.heapGet r = some s0' := h2
          rw [h1] at h2'
          cases h2'
  | advance d hd =>
      have hA : ∀ c ∈ w.calls, c.ref = c.ref → c.newStatus = "ACTIVE" :=
        fun c hc _ => (hg.2.1 c hc).1
      constructor
      · intro r s0 s0' h1 h2
        rw [advance_heapGet w d r (fun c hc _ => (hg.2.1 c hc).1)] at h2
        by_cases hex : ∃ c ∈ w.calls, c.ref = r ∧ c.time ≤ w.now + d
        · rw [if_pos hex, h1] at h2
          cases h2
          right
          obtain ⟨c, hcmem, hcr, _⟩ := hex
          have hbuild := (hg.2.1 c hcmem).2
          rw [hcr, h1] at hbuild
          simp at hbuild
          exact ⟨hbuild, rfl⟩
        · rw [if_neg hex, h1] at h2
          cases h2
          exact Or.inl rfl
      · intro r s0' h1 h2
        rw [advance_heapGet w d r (fun c hc _ => (hg.2.1 c hc).1)] at h2
        by_cases hex : ∃ c ∈ w.calls, c.ref = r ∧ c.time ≤ w.now + d
        · rw [if_pos hex, h1] at h2
          cases h2
        · rw [if_neg hex, h1] at h2
          cases h2

/-- C9: along every run of the collection — creations through any registry
of this module's behaviors, deletions, and clock advancements — a server's
status is set at creation to ACTIVE, BUILD or ERROR, and afterwards the
only transition that ever occurs is BUILD to ACTIVE; in particular no
server ever goes from BUILD to ERROR or from ACTIVE back to BUILD. -/
theorem claim9_status_transitions (w w' : World) (hr : Reachable w) (hs : Step w w') :
    (∀ (r : Nat) (s s' : Server), w.heapGet r = some s → w'.heapGet r = some s' →
      s'.status = s.status ∨ (s.status = "BUILD" ∧ s'.status = "ACTIVE")) ∧
    (∀ (r : Nat) (s' : Server), w.heapGet r = none → w'.heapGet r = some s' →
      s'.status = "ACTIVE" ∨ s'.status = "BUILD" ∨ s'.status = "ERROR") ∧
    (∀ (r : Nat) (s s' : Server), w.heapGet r = some s → w'.heapGet r = some s' →
      ¬ (s.status = "BUILD" ∧ s'.status = "ERROR") ∧
      ¬ (s.status = "ACTIVE" ∧ s'.status = "BUILD")) := by
  obtain ⟨h1, h2⟩ := step_status (good_reachable hr) hs
  refine ⟨h1, h2, ?_⟩
  intro r s s' hga hgb
  rcases h1 r s s' hga hgb with heq | ⟨hb, ha⟩
  · constructor
    · rintro ⟨hsb, hse⟩
      rw [heq, hsb] at hse
      exact absurd hse (by decide)
    · rintro ⟨hsa, hsb'⟩
      rw [heq, hsa] at hsb'
      exact absurd hsb' (by decide)
  · constructor
    · rintro ⟨_, hse⟩
      rw [ha] at hse
      exact absurd hse (by decide)
    · rintro ⟨hsa, _⟩
      rw [hb] at hsa
      exact absurd hsa (by decide)

/-- C9 witness: the default creation step out of the fresh collection
creates its server in one of the three permitted statuses (concretely,
ACTIVE). -/
theorem claim9_witness :
    sActive.status = "ACTIVE" ∨ sActive.status = "BUILD" ∨
      sActive.status = "ERROR" := by
  have hreg : ModuleRegistry reg0 := by
    intro entry hmem
    simp [reg0] at hmem
  have hstep : Step w0 outActive.world :=
    Step.create w0 reg0 (reqWith none) id e0 outActive hreg rfl
  have h := claim9_status_transitions w0 outActive.world
    (Reachable.init "tid" "ORD") hstep
  exact h.2.1 0 sActive (by decide) (by decide)

end Mimic
